import Mathlib

/-! PennApps sample workspace: the Go sample program and the image specification.

Shallow embedding of `workspace-go/main.go` (with the parts of the Go standard
library it calls: `fmt`, `time.Time.Format`, `math/rand`) and of the
`Dockerfile`, followed by the properties proved about them.
-/

namespace PennApps

/-! ## Standard output: a text stream and its lines -/

/-- Lines of a character stream: every newline ends a line; characters after the
last newline form a final, unterminated line. -/
def splitLines : List Char → List (List Char)
  | [] => []
  | c :: cs =>
    if c = '\n' then [] :: splitLines cs
    else
      match splitLines cs with
      | [] => [[c]]
      | l :: ls => (c :: l) :: ls

/-- Lines of the text written to standard output. -/
def lines (out : String) : List String :=
  (splitLines out.data).map String.mk

/-! ## Package fmt -/

/-- Operand of a formatted print: main passes only `int` and `string` values. -/
inductive Arg where
  | int (v : Int)
  | str (s : String)

/-- Decimal digit character of a value below ten (`'0' + d`). -/
def digitChar (d : Nat) : Char := Char.ofNat (48 + d)

/-- Digits of `u` in front of `buf`, most significant first: the loop
`for u >= 10 { q := u / 10; buf[i] = '0' + u - q*10; u = q }` followed by the
store of the leading digit. A 64-bit value needs at most 19 iterations. -/
def decimalLoop : Nat → Nat → List Char → List Char
  | 0, u, buf => digitChar u :: buf
  | fuel + 1, u, buf =>
    if u ≥ 10 then
      let q := u / 10
      decimalLoop fuel q (digitChar (u - q * 10) :: buf)
    else digitChar u :: buf

/-- Decimal digits of an unsigned 64-bit value. -/
def decimal (u : Nat) : List Char := decimalLoop 19 (u % 2 ^ 64) []

/-- Magnitude of a Go `int` as the `uint` the formatting routines work on:
`uint(x)`, or `uint(-x)` when `x` is negative. -/
def magnitude (x : Int) : Nat :=
  if x < 0 then ((-x) % 2 ^ 64).toNat else (x % 2 ^ 64).toNat

/-- The verb `%d` applied to an `int`: an optional minus sign and the decimal digits. -/
def fmtInteger (v : Int) : List Char :=
  if v < 0 then '-' :: decimal (magnitude v) else decimal (magnitude v)

/-- Go type name and default rendering of an operand, used in diagnostics. -/
def Arg.describe : Arg → List Char
  | .int v => "int=".data ++ fmtInteger v
  | .str s => "string=".data ++ s.data

/-- Rendering of operands left over after the format is exhausted. -/
def extraArgs : List Arg → List Char
  | [] => []
  | [a] => a.describe
  | a :: rest => a.describe ++ ", ".data ++ extraArgs rest

/-- The formatting loop of `Printf` for the verbs `%d`, `%s` and `%%`; a verb
without operand, with an operand of the wrong type, or an unknown verb is
rendered as the diagnostic `%!verb(...)`. -/
def doPrintf : List Char → List Arg → List Char
  | [], [] => []
  | [], a :: args => "%!(EXTRA ".data ++ extraArgs (a :: args) ++ [')']
  | c :: rest, args =>
    if c ≠ '%' then c :: doPrintf rest args
    else
      match rest with
      | [] => "%!(NOVERB)".data
      | verb :: rest' =>
        if verb = '%' then '%' :: doPrintf rest' args
        else
          match args with
          | [] => "%!".data ++ [verb] ++ "(MISSING)".data ++ doPrintf rest' []
          | a :: args' =>
            match verb, a with
            | 'd', .int v => fmtInteger v ++ doPrintf rest' args'
            | 's', .str s => s.data ++ doPrintf rest' args'
            | _, _ => "%!".data ++ [verb] ++ ['('] ++ a.describe ++ [')'] ++ doPrintf rest' args'

/-- Text produced by `fmt.Printf(format, args...)`. -/
def Sprintf (format : String) (args : List Arg) : String :=
  String.mk (doPrintf format.data args)

/-- Operands of `Println` joined by single spaces. -/
def joinSpaces : List String → List Char
  | [] => []
  | [s] => s.data
  | s :: rest => s.data ++ ' ' :: joinSpaces rest

/-- Text produced by `fmt.Println` on string operands: the operands separated by
spaces, then a newline. -/
def Sprintln (args : List String) : String :=
  String.mk (joinSpaces args ++ ['\n'])

/-! ## Package time -/

/-- A clock reading, the value `time.Now()` returns, presented by what its
accessor methods `Year`, `Month`, `Day`, `Hour`, `Minute`, `Second` and
`UnixNano` return, within the ranges those methods guarantee. -/
structure Time where
  Year : Int
  Month : Nat
  Day : Nat
  Hour : Nat
  Minute : Nat
  Second : Nat
  UnixNano : Int
  month_range : 1 ≤ Month ∧ Month ≤ 12
  day_range : 1 ≤ Day ∧ Day ≤ 31
  hour_range : Hour < 24
  minute_range : Minute < 60
  second_range : Second < 60
  unix_range : -2 ^ 63 ≤ UnixNano ∧ UnixNano < 2 ^ 63

/-- Numeric layout elements of `Time.Format` (the `std...` constants of
`time/format.go`). -/
inductive Std where
  | stdLongYear
  | stdYear
  | stdZeroMonth
  | stdNumMonth
  | stdZeroDay
  | stdDay
  | stdHour
  | stdZeroHour12
  | stdHour12
  | stdZeroMinute
  | stdMinute
  | stdZeroSecond
  | stdSecond

/-- The table `std0x`: the element named by "01" to "06". -/
def std0x (d : Char) : Std :=
  if d = '1' then .stdZeroMonth
  else if d = '2' then .stdZeroDay
  else if d = '3' then .stdZeroHour12
  else if d = '4' then .stdZeroMinute
  else if d = '5' then .stdZeroSecond
  else .stdYear

/-- The part of `nextStdChunk` for elements that start with a digit: the element
that starts at character `c` (followed by `rest`) and the layout after it, or
`none` when `c` is literal text. Elements that start with a letter, `_`, `-`,
`.` or `,`, and the year-day element "002", are not recognised here; the layout
main passes contains none of them. -/
def stdChunk (c : Char) (rest : List Char) : Option (Std × List Char) :=
  if c = '0' then
    match rest with
    | d :: suffix => if '1' ≤ d ∧ d ≤ '6' then some (std0x d, suffix) else none
    | [] => none
  else if c = '1' then
    match rest with
    | d :: suffix => if d = '5' then some (.stdHour, suffix) else some (.stdNumMonth, rest)
    | [] => some (.stdNumMonth, rest)
  else if c = '2' then
    match rest with
    | d1 :: d2 :: d3 :: suffix =>
      if d1 = '0' ∧ d2 = '0' ∧ d3 = '6' then some (.stdLongYear, suffix) else some (.stdDay, rest)
    | _ => some (.stdDay, rest)
  else if c = '3' then some (.stdHour12, rest)
  else if c = '4' then some (.stdMinute, rest)
  else if c = '5' then some (.stdSecond, rest)
  else none

/-- `appendInt(b, x, width)`: the decimal form of `x`, zero-padded to `width`
digits, a minus sign first when `x` is negative, appended to `b`. -/
def appendInt (b : List Char) (x : Int) (width : Nat) : List Char :=
  let b := if x < 0 then b ++ ['-'] else b
  let digits := decimal (magnitude x)
  b ++ List.replicate (width - digits.length) '0' ++ digits

/-- The hour on a 12-hour clock. -/
def hour12 (hour : Nat) : Nat :=
  let hr := hour % 12
  if hr = 0 then 12 else hr

/-- The switch of `Time.AppendFormat`: the text of one layout element appended to `b`. -/
def appendStd (t : Time) (b : List Char) : Std → List Char
  | .stdLongYear => appendInt b t.Year 4
  | .stdYear => appendInt b ((if t.Year < 0 then -t.Year else t.Year) % 100) 2
  | .stdZeroMonth => appendInt b t.Month 2
  | .stdNumMonth => appendInt b t.Month 0
  | .stdZeroDay => appendInt b t.Day 2
  | .stdDay => appendInt b t.Day 0
  | .stdHour => appendInt b t.Hour 2
  | .stdZeroHour12 => appendInt b (hour12 t.Hour) 2
  | .stdHour12 => appendInt b (hour12 t.Hour) 0
  | .stdZeroMinute => appendInt b t.Minute 2
  | .stdMinute => appendInt b t.Minute 0
  | .stdZeroSecond => appendInt b t.Second 2
  | .stdSecond => appendInt b t.Second 0

/-- The loop of `Time.AppendFormat` over the layout: literal text is copied,
each layout element is replaced by the field it names. Every round consumes at
least one character of the layout, so `fuel` equal to its length is enough. -/
def formatLoop (t : Time) : Nat → List Char → List Char → List Char
  | 0, _, b => b
  | fuel + 1, layout, b =>
    match layout with
    | [] => b
    | c :: rest =>
      match stdChunk c rest with
      | some (std, suffix) => formatLoop t fuel suffix (appendStd t b std)
      | none => formatLoop t fuel rest (b ++ [c])

/-- Textual form of the reading under a layout: `t.Format(layout)`. -/
def Time.Format (t : Time) (layout : String) : String :=
  String.mk (formatLoop t layout.data.length layout.data [])

/-! ## Faults -/

/-- Ways a run can fail to produce its output: a Go panic, or the step budget
of the model running out inside a loop whose length is not known in advance. -/
inductive Fault where
  | panic (msg : String)
  | outOfFuel
  deriving DecidableEq

/-- Two's complement wrap of an integer into the range of Go's 64-bit `int`. -/
def toInt64 (z : Int) : Int := (z + 2 ^ 63) % 2 ^ 64 - 2 ^ 63

/-- Two's complement wrap of an integer into the range of `int32`. -/
def toInt32 (z : Int) : Int := (z + 2 ^ 31) % 2 ^ 32 - 2 ^ 31

/-- The 64-bit pattern of a signed integer. -/
def bits64 (z : Int) : Nat := (z % 2 ^ 64).toNat

/-! ## Package math/rand: the additive lagged Fibonacci source (`rng.go`)

The package-level `rand.Seed` and `rand.Intn` act on one shared generator of
this kind: `Seed` brings it into the state the seed determines, `Intn` draws
from it. The generator's table of 607 precomputed values, `rngCooked`, is a
parameter of the model; nothing proved below depends on its entries. -/

/-- Length of the feedback register. -/
def rngLen : Int := 607

/-- Distance between the two taps of the register. -/
def rngTap : Int := 273

/-- Mask of the low 63 bits. -/
def rngMask : Nat := 2 ^ 63 - 1

/-- Largest `int32`. -/
def int32max : Int := 2 ^ 31 - 1

/-- State of the generator: two indices into the feedback register and the
register itself, `vec i` being the 64-bit pattern of cell `i` (0 ≤ i < 607). -/
structure rngSource where
  tap : Int
  feed : Int
  vec : Int → Nat

/-- Store into one cell of the register. -/
def setCell (vec : Int → Nat) (i : Int) (v : Nat) : Int → Nat :=
  fun j => if j = i then v else vec j

/-- The step `x[n+1] = 48271 * x[n] mod (2**31 - 1)` of the seeding sequence,
in `int32` arithmetic. -/
def seedrand (x : Int) : Int :=
  let hi := Int.tdiv x 44488
  let lo := Int.tmod x 44488
  let x := toInt32 (toInt32 (48271 * lo) - toInt32 (3399 * hi))
  if x < 0 then toInt32 (x + int32max) else x

/-- The loop `for i := -20; i < rngLen; i++` of `Seed`: twenty warm-up steps of
the seeding sequence, then three steps per cell, combined with the cell's entry
of the table `rngCooked`. The first argument counts the rounds left. -/
def seedLoop (rngCooked : Int → Nat) : Nat → Int → Int → (Int → Nat) → (Int → Nat)
  | 0, _, _, vec => vec
  | k + 1, i, x, vec =>
    if i < rngLen then
      let x := seedrand x
      if i ≥ 0 then
        let u := (bits64 x <<< 40) % 2 ^ 64
        let x := seedrand x
        let u := u ^^^ ((bits64 x <<< 20) % 2 ^ 64)
        let x := seedrand x
        let u := u ^^^ bits64 x
        let u := u ^^^ (rngCooked i % 2 ^ 64)
        seedLoop rngCooked k (i + 1) x (setCell vec i u)
      else seedLoop rngCooked k (i + 1) x vec
    else vec

/-- `rng.Seed(seed)`: bring the generator into the state determined by `seed`.
The table `rngCooked` of 607 precomputed 64-bit values is a parameter. -/
def rngSource.Seed (rngCooked : Int → Nat) (rng : rngSource) (seed : Int) : rngSource :=
  let seed := Int.tmod seed int32max
  let seed := if seed < 0 then seed + int32max else seed
  let seed := if seed = 0 then 89482311 else seed
  let x := toInt32 seed
  { tap := 0
    feed := rngLen - rngTap
    vec := seedLoop rngCooked 627 (-20) x rng.vec }

/-- `rng.Uint64()`: step both indices back (cyclically), add the two cells they
name, store the sum at `feed` and return it. -/
def rngSource.Uint64 (rng : rngSource) : Nat × rngSource :=
  let tap := rng.tap - 1
  let tap := if tap < 0 then tap + rngLen else tap
  let feed := rng.feed - 1
  let feed := if feed < 0 then feed + rngLen else feed
  let x := (rng.vec feed + rng.vec tap) % 2 ^ 64
  (x, { tap := tap, feed := feed, vec := setCell rng.vec feed x })

/-- `rng.Int63()`: the low 63 bits of the next value. -/
def rngSource.Int63 (rng : rngSource) : Int × rngSource :=
  let (x, rng) := rng.Uint64
  (((x &&& rngMask : Nat) : Int), rng)

/-- `r.Int31()`: the high 31 bits of `Int63`. -/
def rngSource.Int31 (r : rngSource) : Int × rngSource :=
  let (v, r) := r.Int63
  (((v.toNat >>> 32 : Nat) : Int), r)

/-- The loop `for v > max { v = draw() }` followed by `return v % n`. -/
def rejectLoop (draw : rngSource → Int × rngSource) (max n : Int) :
    Nat → Int → rngSource → Except Fault (Int × rngSource)
  | 0, v, r => if v > max then .error .outOfFuel else .ok (Int.tmod v n, r)
  | fuel + 1, v, r =>
    if v > max then
      let (v, r) := draw r
      rejectLoop draw max n fuel v r
    else .ok (Int.tmod v n, r)

/-- `r.Int31n(n)`: a value in `[0, n)`; panics when `n <= 0`. -/
def rngSource.Int31n (r : rngSource) (n : Int) (fuel : Nat) : Except Fault (Int × rngSource) :=
  if n ≤ 0 then .error (.panic "invalid argument to Int31n")
  else if n.toNat &&& (n - 1).toNat = 0 then
    let (v, r) := r.Int31
    .ok (((v.toNat &&& (n - 1).toNat : Nat) : Int), r)
  else
    let max := toInt32 (2 ^ 31 - 1 - (2 ^ 31 % n))
    let (v, r) := r.Int31
    rejectLoop rngSource.Int31 max n fuel v r

/-- `r.Int63n(n)`: a value in `[0, n)`; panics when `n <= 0`. -/
def rngSource.Int63n (r : rngSource) (n : Int) (fuel : Nat) : Except Fault (Int × rngSource) :=
  if n ≤ 0 then .error (.panic "invalid argument to Int63n")
  else if n.toNat &&& (n - 1).toNat = 0 then
    let (v, r) := r.Int63
    .ok (((v.toNat &&& (n - 1).toNat : Nat) : Int), r)
  else
    let max := toInt64 (2 ^ 63 - 1 - (2 ^ 63 % n))
    let (v, r) := r.Int63
    rejectLoop rngSource.Int63 max n fuel v r

/-- `r.Intn(n)`: a value in `[0, n)`; panics when `n <= 0`. -/
def rngSource.Intn (r : rngSource) (n : Int) (fuel : Nat) : Except Fault (Int × rngSource) :=
  if n ≤ 0 then .error (.panic "invalid argument to Intn")
  else if n ≤ 2 ^ 31 - 1 then r.Int31n (toInt32 n) fuel
  else r.Int63n n fuel

/-- The package-level source before any call of `rand.Seed`: a zeroed register
seeded with 1. -/
def globalRand (rngCooked : Int → Nat) : rngSource :=
  rngSource.Seed rngCooked { tap := 0, feed := 0, vec := fun _ => 0 } 1

/-! ## The sample program (`workspace-go/main.go`) -/

/-- A `for i, x := range xs` loop over a slice: the length is read once, then
for each index in turn the element is fetched (a fetch outside the slice
panics) and the body runs. The first numeric argument is the number of
iterations left, the second the current index. -/
def forRange {σ : Type} (xs : List String) (body : Nat → String → σ → Except Fault σ) :
    Nat → Nat → σ → Except Fault σ
  | 0, _, s => .ok s
  | k + 1, i, s =>
    match xs[i]? with
    | none => .error (.panic "index out of range")
    | some x =>
      match body i x s with
      | .ok s' => forRange xs body k (i + 1) s'
      | .error e => .error e

/-- The slice literal of main. -/
def languages : List String := ["Go", "Python", "JavaScript", "Java", "Rust"]

/-- Body of the loop over `languages`: `fmt.Printf("%d. %s\n", i+1, lang)`. -/
def printLanguage (i : Nat) (lang : String) (out : String) : Except Fault String :=
  .ok (out ++ Sprintf "%d. %s\n" [.int (toInt64 (i + 1)), .str lang])

/-- The loop `for i, lang := range languages` of main, started on the output so far. -/
def printLanguages (out : String) : Except Fault String :=
  forRange languages printLanguage languages.length 0 out

/-- The function `main`: the text it writes to standard output, or the fault
that stops it. `now1` and `now2` are the readings its two calls of `time.Now()`
return; `rngCooked` is the table of the random source and `fuel` bounds the
redraws inside `rand.Intn`. Here `rand.Seed` reseeds the package-level
generator, as it does before Go 1.24 and with `GODEBUG=randseednop=0`;
`mainSeedNoOp` below is the same function where `rand.Seed` has no effect. -/
def main (rngCooked : Int → Nat) (fuel : Nat) (now1 now2 : Time) : Except Fault String := do
  let out := Sprintln ["Hello from Go!"]
  let out := out ++ Sprintln ["Current time:", now1.Format "2006-01-02 15:04:05"]
  let a : Int := 10
  let b : Int := 20
  let sum := toInt64 (a + b)
  let out := out ++ Sprintf "Sum of %d and %d is: %d\n" [.int a, .int b, .int sum]
  let out := out ++ Sprintln ["Programming languages:"]
  let out ← printLanguages out
  let rng := (globalRand rngCooked).Seed rngCooked now2.UnixNano
  let (randomNum, _) ← rng.Intn 100 fuel
  let out := out ++ Sprintf "Random number: %d\n" [.int randomNum]
  pure out

/-! ## The sample program where `rand.Seed` has no effect

Since Go 1.24 the package-level `rand.Seed` returns without doing anything
(unless `GODEBUG=randseednop=0` is set), and the package-level functions draw
from the generator of the Go runtime, which seeds itself when the process
starts. Nothing in the repository fixes the release of Go, so both behaviours
are behaviours of the program. -/

/-- The generator of the Go runtime as `math/rand` uses it in one run of the
process: `next k` is the value the call number `k` of `runtime_rand()` returns,
`pos` the number of calls made so far. -/
structure runtimeSource where
  next : Nat → Nat
  pos : Nat

/-- `runtimeSource.Uint64()`: the next value of `runtime_rand()`. -/
def runtimeSource.Uint64 (s : runtimeSource) : Nat × runtimeSource :=
  (s.next s.pos % 2 ^ 64, { s with pos := s.pos + 1 })

/-- `runtimeSource.Int63()`: `int64(runtime_rand() & rngMask)`. -/
def runtimeSource.Int63 (s : runtimeSource) : Int × runtimeSource :=
  let (x, s) := s.Uint64
  (((x &&& rngMask : Nat) : Int), s)

/-- `r.Int31()` over the runtime's generator. -/
def runtimeSource.Int31 (r : runtimeSource) : Int × runtimeSource :=
  let (v, r) := r.Int63
  (((v.toNat >>> 32 : Nat) : Int), r)

/-- The loop `for v > max { v = draw() }` followed by `return v % n`, over the
runtime's generator. -/
def redrawLoop (draw : runtimeSource → Int × runtimeSource) (max n : Int) :
    Nat → Int → runtimeSource → Except Fault (Int × runtimeSource)
  | 0, v, r => if v > max then .error .outOfFuel else .ok (Int.tmod v n, r)
  | fuel + 1, v, r =>
    if v > max then
      let (v, r) := draw r
      redrawLoop draw max n fuel v r
    else .ok (Int.tmod v n, r)

/-- `r.Int31n(n)` over the runtime's generator. -/
def runtimeSource.Int31n (r : runtimeSource) (n : Int) (fuel : Nat) :
    Except Fault (Int × runtimeSource) :=
  if n ≤ 0 then .error (.panic "invalid argument to Int31n")
  else if n.toNat &&& (n - 1).toNat = 0 then
    let (v, r) := r.Int31
    .ok (((v.toNat &&& (n - 1).toNat : Nat) : Int), r)
  else
    let max := toInt32 (2 ^ 31 - 1 - (2 ^ 31 % n))
    let (v, r) := r.Int31
    redrawLoop runtimeSource.Int31 max n fuel v r

/-- `r.Int63n(n)` over the runtime's generator. -/
def runtimeSource.Int63n (r : runtimeSource) (n : Int) (fuel : Nat) :
    Except Fault (Int × runtimeSource) :=
  if n ≤ 0 then .error (.panic "invalid argument to Int63n")
  else if n.toNat &&& (n - 1).toNat = 0 then
    let (v, r) := r.Int63
    .ok (((v.toNat &&& (n - 1).toNat : Nat) : Int), r)
  else
    let max := toInt64 (2 ^ 63 - 1 - (2 ^ 63 % n))
    let (v, r) := r.Int63
    redrawLoop runtimeSource.Int63 max n fuel v r

/-- `r.Intn(n)` over the runtime's generator. -/
def runtimeSource.Intn (r : runtimeSource) (n : Int) (fuel : Nat) :
    Except Fault (Int × runtimeSource) :=
  if n ≤ 0 then .error (.panic "invalid argument to Intn")
  else if n ≤ 2 ^ 31 - 1 then r.Int31n (toInt32 n) fuel
  else r.Int63n n fuel

/-- The package-level `rand.Seed` where it has no effect: the generator is left
as it is, whatever the seed. -/
def seedNoOp (runtime : runtimeSource) (_seed : Int) : runtimeSource := runtime

/-- The function `main` where `rand.Seed` has no effect: the same statements as
in `main`, with `rand.Intn` drawing from the runtime's generator `runtime`. -/
def mainSeedNoOp (runtime : runtimeSource) (fuel : Nat) (now1 now2 : Time) :
    Except Fault String := do
  let out := Sprintln ["Hello from Go!"]
  let out := out ++ Sprintln ["Current time:", now1.Format "2006-01-02 15:04:05"]
  let a : Int := 10
  let b : Int := 20
  let sum := toInt64 (a + b)
  let out := out ++ Sprintf "Sum of %d and %d is: %d\n" [.int a, .int b, .int sum]
  let out := out ++ Sprintln ["Programming languages:"]
  let out ← printLanguages out
  let rng := seedNoOp runtime now2.UnixNano
  let (randomNum, _) ← rng.Intn 100 fuel
  let out := out ++ Sprintf "Random number: %d\n" [.int randomNum]
  pure out

/-! ## Notions used in the statements and proofs -/

/-- Indices within the register, `feed` running 334 cells ahead of `tap` (cyclically). -/
def rngSource.Valid (s : rngSource) : Prop :=
  0 ≤ s.tap ∧ s.tap < 607 ∧ 0 ≤ s.feed ∧ s.feed < 607 ∧ (s.feed - s.tap) % 607 = 334

/-- State after one call of `Uint64`. -/
def rngSource.step (s : rngSource) : rngSource := s.Uint64.2

/-- Value returned by the next call of `Uint64`. -/
def rngSource.out (s : rngSource) : Nat := s.Uint64.1

/-- State after `n` calls of `Uint64`. -/
def rngSource.advance : Nat → rngSource → rngSource
  | 0, s => s
  | n + 1, s => rngSource.advance n s.step

/-- The redraw test of `Int31n(100)` on a 64-bit output: its bits 32..62 exceed
`max = 2147483599`. -/
def rejected (x : Nat) : Prop := 9223371830696345600 ≤ x % 9223372036854775808

/-- Value of a string of decimal digits. -/
def readDecimal (cs : List Char) : Nat :=
  cs.foldl (fun acc c => 10 * acc + (c.toNat - 48)) 0

/-! ## The image specification (`Dockerfile`) -/

/-- Instructions of the image specification, with their arguments. -/
inductive Instruction where
  | FROM (image : String)
  | USER (name : String)
  | RUN (command : String)
  | ENV (key value : String)
  | WORKDIR (path : String)
  | EXPOSE (port : String)
  | CMD (args : List String)
  deriving DecidableEq

/-- The instructions of the file, in order. A RUN command that is continued
over several lines is given as the one line the builder joins it into. -/
def dockerfile : List Instruction :=
  [ .FROM "codercom/code-server:latest",
    .USER "root",
    .RUN ("apt-get update &&     apt-get install -y     golang-go     python3     python3-pip" ++
      "     git     curl     wget     vim     nano     htop     tree     build-essential" ++
      "     && rm -rf /var/lib/apt/lists/*"),
    .RUN "ln -s /usr/bin/python3 /usr/bin/python",
    .ENV "GOPATH" "/home/coder/go",
    .ENV "PATH" "$GOPATH/bin:/usr/local/go/bin:$PATH",
    .RUN "mkdir -p /home/coder/go/src /home/coder/go/bin /home/coder/go/pkg",
    .USER "coder",
    .WORKDIR "/home/coder/workspace",
    .EXPOSE "8080",
    .CMD ["code-server", "--bind-addr", "0.0.0.0:8080", "--auth", "password",
      "/home/coder/workspace"] ]

/-- Configuration of an image during a build: the current user, the environment
(most recent assignment first), the working directory, the declared ports, the
startup command, and the instructions executed so far, each with the user in
effect when it ran. -/
structure Image where
  user : String
  env : List (String × String)
  workdir : String
  exposed : List String
  cmd : List String
  log : List (String × Instruction)

/-- Value of an environment variable, if set. -/
def getenv (env : List (String × String)) (name : String) : Option String :=
  env.lookup name

/-- Characters of a variable name. -/
def isNameChar (c : Char) : Bool := c.isAlphanum || c = '_'

/-- Replacement of every `$NAME` by the value of `NAME` (nothing when unset),
in one pass from left to right; the first argument bounds the number of rounds
and the length of the text is enough. The forms with braces, which the file
does not use, are not covered. -/
def expandLoop (env : List (String × String)) : Nat → List Char → List Char
  | 0, _ => []
  | _ + 1, [] => []
  | fuel + 1, c :: rest =>
    if c = '$' then
      let name := rest.takeWhile isNameChar
      if name = [] then c :: expandLoop env fuel rest
      else ((getenv env (String.mk name)).getD "").data
        ++ expandLoop env fuel (rest.dropWhile isNameChar)
    else c :: expandLoop env fuel rest

/-- Variable substitution in the argument of an instruction. -/
def expand (env : List (String × String)) (s : String) : String :=
  String.mk (expandLoop env s.data.length s.data)

/-- Effect of one instruction on the image under construction; `base` is the
configuration of the image that FROM names. -/
def exec (base : Image) (img : Image) (ins : Instruction) : Image :=
  match ins with
  | .FROM _ => { base with log := [(base.user, ins)] }
  | .USER name => { img with user := expand img.env name, log := img.log ++ [(img.user, ins)] }
  | .RUN _ => { img with log := img.log ++ [(img.user, ins)] }
  | .ENV key value =>
    { img with env := (key, expand img.env value) :: img.env, log := img.log ++ [(img.user, ins)] }
  | .WORKDIR path =>
    let p := expand img.env path
    { img with
      workdir := if p.data.head? = some '/' then p else img.workdir ++ "/" ++ p
      log := img.log ++ [(img.user, ins)] }
  | .EXPOSE port =>
    { img with exposed := img.exposed ++ [expand img.env port], log := img.log ++ [(img.user, ins)] }
  | .CMD args => { img with cmd := args, log := img.log ++ [(img.user, ins)] }

/-- The image the file builds on top of the base image. -/
def build (base : Image) : Image :=
  dockerfile.foldl (exec base) base

/-- The argument that follows the first occurrence of `flag`. -/
def argAfter (flag : String) : List String → Option String
  | [] => none
  | [_] => none
  | a :: b :: rest => if a = flag then some b else argAfter flag (b :: rest)

/-- Text after the last colon (the whole text when there is none). -/
def afterLastColon : List Char → List Char
  | [] => []
  | c :: rest => if ':' ∈ rest then afterLastColon rest else if c = ':' then rest else c :: rest

/-- Port component of an address `host:port`. -/
def portOf (addr : String) : String := String.mk (afterLastColon addr.data)

/-- Words of a command line: maximal stretches without a space. -/
def splitWords : List Char → List (List Char)
  | [] => []
  | c :: cs =>
    if c = ' ' then [] :: splitWords cs
    else
      match splitWords cs with
      | [] => [[c]]
      | w :: ws => (c :: w) :: ws

/-- Directories a `mkdir` command line names: its words other than the command
name and the options. -/
def mkdirTargets (command : String) : List String :=
  match (splitWords command.data).filter (fun w => w ≠ []) with
  | [] => []
  | name :: args =>
    if name = "mkdir".data then (args.filter (fun w => w.head? ≠ some '-')).map String.mk else []

/-- The commands of the RUN instructions executed, each with the user in effect. -/
def runs (img : Image) : List (String × String) :=
  img.log.filterMap fun entry =>
    match entry.2 with
    | .RUN command => some (entry.1, command)
    | _ => none

/-- The users in effect at the CMD instructions executed. -/
def cmdUsers (img : Image) : List String :=
  img.log.filterMap fun entry =>
    match entry.2 with
    | .CMD _ => some entry.1
    | _ => none

/-- Two base images that differ only in the inherited search path. -/
def baseA : Image :=
  { user := "coder", env := [("PATH", "/usr/local/bin:/usr/bin:/bin")], workdir := "/home/coder",
    exposed := [], cmd := [], log := [] }

def baseB : Image :=
  { user := "coder", env := [("PATH", "/usr/bin:/bin")], workdir := "/home/coder",
    exposed := [], cmd := [], log := [] }

/-! ## Concrete inputs -/

/-- A table for the random source with every entry zero. -/
def sampleTable : Int → Nat := fun _ => 0

/-- The reading 2025-09-20 14:30:05 (UTC). -/
def sampleNow1 : Time :=
  { Year := 2025, Month := 9, Day := 20, Hour := 14, Minute := 30, Second := 5
    UnixNano := 1758378605000000000
    month_range := by decide
    day_range := by decide
    hour_range := by decide
    minute_range := by decide
    second_range := by decide
    unix_range := by decide }

/-- A reading 123456 nanoseconds later. -/
def sampleNow2 : Time :=
  { Year := 2025, Month := 9, Day := 20, Hour := 14, Minute := 30, Second := 5
    UnixNano := 1758378605000123456
    month_range := by decide
    day_range := by decide
    hour_range := by decide
    minute_range := by decide
    second_range := by decide
    unix_range := by decide }

/-- The reading of `sampleNow2` taken in Philadelphia (UTC-4): the same instant,
other calendar fields. -/
def sampleLocal : Time :=
  { Year := 2025, Month := 9, Day := 20, Hour := 10, Minute := 30, Second := 5
    UnixNano := 1758378605000123456
    month_range := by decide
    day_range := by decide
    hour_range := by decide
    minute_range := by decide
    second_range := by decide
    unix_range := by decide }

/-- A run in which every call of `runtime_rand()` returns `1 * 2^32`. -/
def runtimeA : runtimeSource := { next := fun _ => 4294967296, pos := 0 }

/-- A run in which every call of `runtime_rand()` returns `48 * 2^32`. -/
def runtimeB : runtimeSource := { next := fun _ => 206158430208, pos := 0 }

/-- Value `Seed` stores in cell `i` when the seeding sequence stands at `x` on
entry to the round for that cell. -/
def seedCell (rngCooked : Int → Nat) (i : Int) (x : Int) : Nat :=
  let x := seedrand x
  let u := (bits64 x <<< 40) % 2 ^ 64
  let x := seedrand x
  let u := u ^^^ ((bits64 x <<< 20) % 2 ^ 64)
  let x := seedrand x
  let u := u ^^^ bits64 x
  u ^^^ (rngCooked i % 2 ^ 64)


set_option maxRecDepth 8000

/-! ## The random source: recurrence of the outputs and end of the redraw loop -/

theorem wrap_eq (a : Int) (h0 : 0 ≤ a) (h1 : a < 607) :
    (if a - 1 < 0 then a - 1 + rngLen else a - 1) = (a - 1) % 607 := by
  unfold rngLen
  split <;> omega

theorem step_eq (s : rngSource) (h : s.Valid) :
    s.step = { tap := (s.tap - 1) % 607, feed := (s.feed - 1) % 607,
               vec := setCell s.vec ((s.feed - 1) % 607)
                 ((s.vec ((s.feed - 1) % 607) + s.vec ((s.tap - 1) % 607)) % 2 ^ 64) } := by
  obtain ⟨h1, h2, h3, h4, _⟩ := h
  simp only [rngSource.step, rngSource.Uint64, wrap_eq s.tap h1 h2, wrap_eq s.feed h3 h4]

theorem out_eq (s : rngSource) (h : s.Valid) :
    s.out = (s.vec ((s.feed - 1) % 607) + s.vec ((s.tap - 1) % 607)) % 2 ^ 64 := by
  obtain ⟨h1, h2, h3, h4, _⟩ := h
  simp only [rngSource.out, rngSource.Uint64, wrap_eq s.tap h1 h2, wrap_eq s.feed h3 h4]

theorem valid_step (s : rngSource) (h : s.Valid) : s.step.Valid := by
  rw [step_eq s h]
  obtain ⟨h1, h2, h3, h4, h5⟩ := h
  refine ⟨?_, ?_, ?_, ?_, ?_⟩ <;> simp only <;> omega

theorem advance_succ (n : Nat) (s : rngSource) :
    rngSource.advance (n + 1) s = (rngSource.advance n s).step := by
  induction n generalizing s with
  | zero => rfl
  | succ n ih => exact ih s.step

theorem advance_add (a b : Nat) (s : rngSource) :
    rngSource.advance (a + b) s = rngSource.advance a (rngSource.advance b s) := by
  induction a with
  | zero => simp [rngSource.advance]
  | succ a ih => rw [Nat.succ_add, advance_succ, advance_succ, ih]

theorem advance_spec (n : Nat) (s : rngSource) (h : s.Valid) :
    (rngSource.advance n s).Valid ∧ (rngSource.advance n s).feed = (s.feed - n) % 607 ∧
      (rngSource.advance n s).tap = (s.tap - n) % 607 := by
  induction n with
  | zero =>
    obtain ⟨h1, h2, h3, h4, h5⟩ := h
    refine ⟨⟨h1, h2, h3, h4, h5⟩, ?_, ?_⟩ <;> simp only [rngSource.advance] <;> omega
  | succ n ih =>
    obtain ⟨hv, hf, ht⟩ := ih
    rw [advance_succ]
    refine ⟨valid_step _ hv, ?_, ?_⟩
    · rw [step_eq _ hv]; simp only; rw [hf]; push_cast; omega
    · rw [step_eq _ hv]; simp only; rw [ht]; push_cast; omega

/-- A cell just written keeps its value for the next 606 steps. -/
theorem cell_kept (s : rngSource) (h : s.Valid) (m : Nat) (hm : m ≤ 606) :
    (rngSource.advance m s.step).vec s.step.feed = s.out := by
  induction m with
  | zero =>
    simp only [rngSource.advance]
    rw [out_eq s h, step_eq s h]
    simp [setCell]
  | succ m ih =>
    have ih := ih (by omega)
    obtain ⟨hv, hf, _⟩ := advance_spec m s.step (valid_step s h)
    obtain ⟨_, _, g3, g4, _⟩ := valid_step s h
    rw [advance_succ, step_eq _ hv]
    simp only [setCell]
    rw [if_neg, ih]
    rw [hf]
    omega

/-- The outputs obey `x[n+607] = x[n] + x[n+334]` modulo `2^64`. -/
theorem out_recurrence (s : rngSource) (h : s.Valid) (n : Nat) :
    (rngSource.advance (n + 607) s).out =
      ((rngSource.advance n s).out + (rngSource.advance (n + 334) s).out) % 2 ^ 64 := by
  obtain ⟨hv, hf, ht⟩ := advance_spec n s h
  have e1 : rngSource.advance (n + 607) s = rngSource.advance 606 (rngSource.advance n s).step := by
    rw [show n + 607 = 606 + (n + 1) by omega, advance_add, advance_succ n s]
  have e2 : rngSource.advance (n + 607) s =
      rngSource.advance 272 (rngSource.advance (n + 334) s).step := by
    rw [show n + 607 = 272 + (n + 334 + 1) by omega, advance_add, advance_succ (n + 334) s]
  obtain ⟨hv7, hf7, ht7⟩ := advance_spec (n + 607) s h
  obtain ⟨hv3, hf3, ht3⟩ := advance_spec (n + 334) s h
  have k1 := cell_kept _ hv 606 (by omega)
  have k2 := cell_kept _ hv3 272 (by omega)
  rw [← e1] at k1
  rw [← e2] at k2
  rw [out_eq _ hv7, ← k1, ← k2]
  have a1 : ((rngSource.advance (n + 607) s).feed - 1) % 607 = (rngSource.advance n s).step.feed := by
    rw [step_eq _ hv]; simp only; rw [hf7, hf]; push_cast; omega
  have a2 : ((rngSource.advance (n + 607) s).tap - 1) % 607 =
      (rngSource.advance (n + 334) s).step.feed := by
    rw [step_eq _ hv3]; simp only; rw [ht7, hf3]; push_cast
    obtain ⟨_, _, _, _, h5⟩ := h
    omega
  rw [a1, a2]

theorem reject_growth (s : rngSource) (h : s.Valid) (N : Nat)
    (hall : ∀ n, n < N → rejected (rngSource.advance n s).out) :
    ∀ k n, 607 * k ≤ n → n < N →
      2 ^ k ≤ 9223372036854775808 - (rngSource.advance n s).out % 9223372036854775808 := by
  intro k
  induction k with
  | zero =>
    intro n _ _
    have := Nat.mod_lt (rngSource.advance n s).out (show 0 < 9223372036854775808 by norm_num)
    simp only [pow_zero]
    omega
  | succ k ih =>
    intro n hn hN
    obtain ⟨m, rfl⟩ : ∃ m, n = m + 607 := ⟨n - 607, by omega⟩
    have r := out_recurrence s h m
    have ha := hall m (by omega)
    have hb := hall (m + 334) (by omega)
    have ia := ih m (by omega) (by omega)
    have ib := ih (m + 334) (by omega) (by omega)
    unfold rejected at ha hb
    rw [pow_succ]
    generalize 2 ^ k = p at ia ib ⊢
    generalize (rngSource.advance (m + 607) s).out = x at r ⊢
    generalize (rngSource.advance m s).out = a at r ha ia
    generalize (rngSource.advance (m + 334) s).out = b at r hb ib
    norm_num at r
    omega

/-- Within any 23067 consecutive outputs of the generator there is one that
`Int31n(100)` accepts. -/
theorem exists_accepted (s : rngSource) (h : s.Valid) :
    ∃ n, n ≤ 23066 ∧ ¬ rejected (rngSource.advance n s).out := by
  by_contra hcon
  push_neg at hcon
  have g := reject_growth s h 23067 (fun n hn => hcon n (by omega)) 38 23066 (by norm_num)
    (by norm_num)
  have hr := hcon 23066 (le_refl _)
  unfold rejected at hr
  norm_num at g
  omega

theorem Int31_eq (s : rngSource) :
    s.Int31 = (((s.out % 9223372036854775808 / 4294967296 : Nat) : Int), s.step) := by
  have e : rngMask = 2 ^ 63 - 1 := rfl
  simp only [rngSource.Int31, rngSource.Int63, rngSource.out, rngSource.step, e,
    Nat.and_pow_two_sub_one_eq_mod, Int.toNat_ofNat, Nat.shiftRight_eq_div_pow]

theorem Int31_gt_max (s : rngSource) : s.Int31.1 > 2147483599 ↔ rejected s.out := by
  rw [Int31_eq]
  unfold rejected
  simp only
  omega

theorem Int31_nonneg (s : rngSource) : 0 ≤ s.Int31.1 := by
  rw [Int31_eq]
  simp only
  omega

theorem rejectLoop_ok (fuel : Nat) :
    ∀ (s : rngSource) (k : Nat), k ≤ fuel → ¬ rejected (rngSource.advance k s).out →
      ∃ v r, 0 ≤ v ∧
        rejectLoop rngSource.Int31 2147483599 100 fuel s.Int31.1 s.Int31.2 = .ok (Int.tmod v 100, r) := by
  induction fuel with
  | zero =>
    intro s k hk hacc
    obtain rfl : k = 0 := by omega
    simp only [rngSource.advance] at hacc
    refine ⟨s.Int31.1, s.Int31.2, Int31_nonneg s, ?_⟩
    simp only [rejectLoop]
    rw [if_neg]
    rw [Int31_gt_max]
    exact hacc
  | succ fuel ih =>
    intro s k hk hacc
    by_cases hr : rejected s.out
    · have hk0 : k ≠ 0 := by
        rintro rfl
        exact hacc hr
      obtain ⟨j, rfl⟩ : ∃ j, k = j + 1 := ⟨k - 1, by omega⟩
      simp only [rngSource.advance] at hacc
      obtain ⟨v, r, hv, he⟩ := ih s.step j (by omega) hacc
      refine ⟨v, r, hv, ?_⟩
      simp only [rejectLoop]
      rw [if_pos ((Int31_gt_max s).2 hr)]
      have e2 : s.Int31.2 = s.step := by rw [Int31_eq]
      rw [e2]
      exact he
    · refine ⟨s.Int31.1, s.Int31.2, Int31_nonneg s, ?_⟩
      simp only [rejectLoop]
      rw [if_neg]
      rw [Int31_gt_max]
      exact hr

theorem rejectLoop_mono (draw : rngSource → Int × rngSource) (max n : Int) (fuel : Nat) :
    ∀ (v : Int) (r : rngSource) (a : Int × rngSource),
      rejectLoop draw max n fuel v r = .ok a → rejectLoop draw max n (fuel + 1) v r = .ok a := by
  induction fuel with
  | zero =>
    intro v r a h
    simp only [rejectLoop] at h ⊢
    by_cases hv : v > max
    · rw [if_pos hv] at h
      cases h
    · rw [if_neg hv] at h ⊢
      exact h
  | succ fuel ih =>
    intro v r a h
    rw [rejectLoop] at h ⊢
    by_cases hv : v > max
    · rw [if_pos hv] at h ⊢
      exact ih _ _ _ h
    · rw [if_neg hv] at h ⊢
      exact h

theorem Intn_100_eq (s : rngSource) (fuel : Nat) :
    s.Intn 100 fuel = rejectLoop rngSource.Int31 2147483599 100 fuel s.Int31.1 s.Int31.2 := by
  have e1 : toInt32 100 = 100 := by decide
  have e2 : toInt32 (2 ^ 31 - 1 - 2 ^ 31 % 100) = 2147483599 := by decide
  have e3 : ¬ ((100 : Int) ≤ 0) := by decide
  have e4 : (100 : Int) ≤ 2 ^ 31 - 1 := by decide
  have e5 : ¬ ((100 : Int).toNat &&& ((100 : Int) - 1).toNat = 0) := by decide
  simp only [rngSource.Intn, rngSource.Int31n, e1, e2, if_neg e3, if_pos e4, if_neg e5]

/-- From a valid state `Intn(100)` returns a value in `[0, 100)` once 23066 redraws are allowed. -/
theorem Intn_100_ok (s : rngSource) (h : s.Valid) (fuel : Nat) (hf : 23066 ≤ fuel) :
    ∃ v r, 0 ≤ v ∧ v < 100 ∧ s.Intn 100 fuel = .ok (v, r) := by
  obtain ⟨k, hk, hacc⟩ := exists_accepted s h
  obtain ⟨v, r, hv, he⟩ := rejectLoop_ok fuel s k (by omega) hacc
  refine ⟨Int.tmod v 100, r, ?_, ?_, ?_⟩
  · exact Int.tmod_nonneg _ hv
  · exact Int.tmod_lt_of_pos _ (by norm_num)
  · rw [Intn_100_eq]; exact he

theorem Intn_100_mono (s : rngSource) (fuel fuel' : Nat) (hle : fuel ≤ fuel') (a : Int × rngSource)
    (h : s.Intn 100 fuel = .ok a) : s.Intn 100 fuel' = .ok a := by
  rw [Intn_100_eq] at h ⊢
  induction hle with
  | refl => exact h
  | step _ ih => exact rejectLoop_mono _ _ _ _ _ _ _ ih

theorem seed_valid (rngCooked : Int → Nat) (rng : rngSource) (seed : Int) :
    (rng.Seed rngCooked seed).Valid := by
  simp only [rngSource.Valid, rngSource.Seed, rngLen, rngTap]
  decide

/-! ## Text: digits, lines, the timestamp -/

theorem digitChar_toNat (d : Nat) : (digitChar d).toNat = 48 + d ∨ (digitChar d).toNat = 0 := by
  unfold digitChar Char.ofNat
  split
  · left
    simp [Char.ofNatAux, Char.toNat, UInt32.toNat]
  · right
    rfl

theorem digitChar_ne_newline (d : Nat) : digitChar d ≠ '\n' := by
  intro h
  have h2 := congrArg Char.toNat h
  have h3 : ('\n' : Char).toNat = 10 := rfl
  rw [h3] at h2
  rcases digitChar_toNat d with h4 | h4 <;> omega

/-- A stretch of text without newline, followed by a newline, is one line. -/
theorem splitLines_line (l rest : List Char) (h : '\n' ∉ l) :
    splitLines (l ++ '\n' :: rest) = l :: splitLines rest := by
  induction l with
  | nil => simp [splitLines]
  | cons c l ih =>
    have hc : c ≠ '\n' := fun e => h (by simp [e])
    have hl : '\n' ∉ l := fun e => h (by simp [e])
    have e := ih hl
    rw [List.cons_append, splitLines, if_neg hc, e]

theorem decimalLoop_no_newline (fuel : Nat) :
    ∀ (u : Nat) (buf : List Char), '\n' ∉ buf → '\n' ∉ decimalLoop fuel u buf := by
  induction fuel with
  | zero =>
    intro u buf hb
    simp only [decimalLoop, List.mem_cons, not_or]
    exact ⟨fun e => digitChar_ne_newline u e.symm, hb⟩
  | succ fuel ih =>
    intro u buf hb
    simp only [decimalLoop]
    split
    · apply ih
      simp only [List.mem_cons, not_or]
      exact ⟨fun e => digitChar_ne_newline _ e.symm, hb⟩
    · simp only [List.mem_cons, not_or]
      exact ⟨fun e => digitChar_ne_newline u e.symm, hb⟩

theorem decimal_no_newline (u : Nat) : '\n' ∉ decimal u :=
  decimalLoop_no_newline 19 _ [] (by simp)

theorem fmtInteger_no_newline (v : Int) : '\n' ∉ fmtInteger v := by
  unfold fmtInteger
  split
  · simp only [List.mem_cons, not_or]
    exact ⟨by decide, decimal_no_newline _⟩
  · exact decimal_no_newline _

theorem appendInt_no_newline (b : List Char) (x : Int) (width : Nat) (hb : '\n' ∉ b) :
    '\n' ∉ appendInt b x width := by
  unfold appendInt
  simp only [List.mem_append, not_or, List.mem_replicate]
  refine ⟨⟨?_, ?_⟩, decimal_no_newline _⟩
  · split
    · simp only [List.mem_append, not_or, List.mem_singleton]
      exact ⟨hb, by decide⟩
    · exact hb
  · rintro ⟨_, e⟩
    exact absurd e (by decide)

theorem format_data (t : Time) :
    (t.Format "2006-01-02 15:04:05").data =
      appendInt (appendInt (appendInt (appendInt (appendInt (appendInt [] t.Year 4 ++ ['-'])
        t.Month 2 ++ ['-']) t.Day 2 ++ [' ']) t.Hour 2 ++ [':']) t.Minute 2 ++ [':']) t.Second 2 := by
  rfl

theorem format_no_newline (t : Time) : '\n' ∉ (t.Format "2006-01-02 15:04:05").data := by
  rw [format_data]
  have step : ∀ (b : List Char) (x : Int) (w : Nat) (c : Char), c ≠ '\n' → '\n' ∉ b →
      '\n' ∉ appendInt b x w ++ [c] := by
    intro b x w c hc hb
    simp only [List.mem_append, not_or, List.mem_singleton]
    exact ⟨appendInt_no_newline b x w hb, fun e => hc e.symm⟩
  apply appendInt_no_newline
  apply step _ _ _ _ (by decide)
  apply step _ _ _ _ (by decide)
  apply step _ _ _ _ (by decide)
  apply step _ _ _ _ (by decide)
  apply step _ _ _ _ (by decide)
  simp

theorem printLanguages_eq (out : String) :
    printLanguages out =
      .ok (out ++ "1. Go\n" ++ "2. Python\n" ++ "3. JavaScript\n" ++ "4. Java\n" ++ "5. Rust\n") := by
  rfl

theorem decimalLoop_small (fuel u : Nat) (buf : List Char) (h : u < 10) :
    decimalLoop fuel u buf = digitChar u :: buf := by
  cases fuel with
  | zero => rfl
  | succ fuel => rw [decimalLoop, if_neg (by omega)]

theorem decimalLoop_step (fuel u : Nat) (buf : List Char) (h : 10 ≤ u) :
    decimalLoop (fuel + 1) u buf = decimalLoop fuel (u / 10) (digitChar (u % 10) :: buf) := by
  rw [decimalLoop, if_pos h]
  have e : u - u / 10 * 10 = u % 10 := by omega
  simp only [e]

theorem magnitude_natCast (n : Nat) (h : n < 2 ^ 64) : magnitude (n : Int) = n := by
  unfold magnitude
  rw [if_neg (by omega)]
  norm_num at h ⊢
  omega

theorem decimal_two (n : Nat) (h : n < 100) :
    List.replicate (2 - (decimal n).length) '0' ++ decimal n =
      [digitChar (n / 10), digitChar (n % 10)] := by
  have e : n % 2 ^ 64 = n := Nat.mod_eq_of_lt (by norm_num; omega)
  unfold decimal
  rw [e]
  by_cases h10 : n < 10
  · rw [decimalLoop_small _ _ _ h10]
    have e1 : n / 10 = 0 := by omega
    have e2 : n % 10 = n := by omega
    rw [e1, e2]
    rfl
  · rw [decimalLoop_step _ _ _ (by omega), decimalLoop_small _ _ _ (by omega)]
    rfl

theorem decimal_four (n : Nat) (h : n < 10000) :
    List.replicate (4 - (decimal n).length) '0' ++ decimal n =
      [digitChar (n / 1000), digitChar (n / 100 % 10), digitChar (n / 10 % 10), digitChar (n % 10)] := by
  have e : n % 2 ^ 64 = n := Nat.mod_eq_of_lt (by norm_num; omega)
  unfold decimal
  rw [e]
  by_cases h10 : n < 10
  · rw [decimalLoop_small _ _ _ h10]
    have e1 : n / 1000 = 0 := by omega
    have e2 : n / 100 % 10 = 0 := by omega
    have e3 : n / 10 % 10 = 0 := by omega
    have e4 : n % 10 = n := by omega
    rw [e1, e2, e3, e4]
    rfl
  · by_cases h100 : n < 100
    · rw [decimalLoop_step _ _ _ (by omega), decimalLoop_small _ _ _ (by omega)]
      have e1 : n / 1000 = 0 := by omega
      have e2 : n / 100 % 10 = 0 := by omega
      have e3 : n / 10 % 10 = n / 10 := by omega
      rw [e1, e2, e3]
      rfl
    · by_cases h1000 : n < 1000
      · rw [decimalLoop_step _ _ _ (by omega), decimalLoop_step _ _ _ (by omega),
          decimalLoop_small _ _ _ (by omega)]
        have e1 : n / 1000 = 0 := by omega
        have e2 : n / 100 % 10 = n / 10 / 10 := by omega
        rw [e1, e2]
        rfl
      · rw [decimalLoop_step _ _ _ (by omega), decimalLoop_step _ _ _ (by omega),
          decimalLoop_step _ _ _ (by omega), decimalLoop_small _ _ _ (by omega)]
        have e1 : n / 1000 = n / 10 / 10 / 10 := by omega
        have e2 : n / 100 % 10 = n / 10 / 10 % 10 := by omega
        rw [e1, e2]
        rfl

theorem appendInt_two (b : List Char) (n : Nat) (h : n < 100) :
    appendInt b (n : Int) 2 = b ++ [digitChar (n / 10), digitChar (n % 10)] := by
  unfold appendInt
  simp only
  rw [if_neg (by omega), magnitude_natCast n (by norm_num; omega), List.append_assoc, decimal_two n h]

theorem appendInt_four (b : List Char) (n : Nat) (h : n < 10000) :
    appendInt b (n : Int) 4 =
      b ++ [digitChar (n / 1000), digitChar (n / 100 % 10), digitChar (n / 10 % 10),
        digitChar (n % 10)] := by
  unfold appendInt
  simp only
  rw [if_neg (by omega), magnitude_natCast n (by norm_num; omega), List.append_assoc, decimal_four n h]

theorem digitChar_isDigit (d : Nat) (h : d < 10) : (digitChar d).isDigit = true := by
  interval_cases d <;> rfl

theorem digitChar_value (d : Nat) (h : d < 10) : (digitChar d).toNat - 48 = d := by
  interval_cases d <;> rfl

theorem readDecimal_two (a b : Nat) (ha : a < 10) (hb : b < 10) :
    readDecimal [digitChar a, digitChar b] = 10 * a + b := by
  simp [readDecimal, digitChar_value a ha, digitChar_value b hb]

theorem readDecimal_four (a b c d : Nat) (ha : a < 10) (hb : b < 10) (hc : c < 10) (hd : d < 10) :
    readDecimal [digitChar a, digitChar b, digitChar c, digitChar d] =
      1000 * a + 100 * b + 10 * c + d := by
  simp [readDecimal, digitChar_value a ha, digitChar_value b hb, digitChar_value c hc,
    digitChar_value d hd]
  ring

theorem format_fields (t : Time) (h0 : 0 ≤ t.Year) (h1 : t.Year ≤ 9999) :
    (t.Format "2006-01-02 15:04:05").data =
      [digitChar (t.Year.toNat / 1000), digitChar (t.Year.toNat / 100 % 10),
        digitChar (t.Year.toNat / 10 % 10), digitChar (t.Year.toNat % 10)] ++ '-' ::
      ([digitChar (t.Month / 10), digitChar (t.Month % 10)] ++ '-' ::
      ([digitChar (t.Day / 10), digitChar (t.Day % 10)] ++ ' ' ::
      ([digitChar (t.Hour / 10), digitChar (t.Hour % 10)] ++ ':' ::
      ([digitChar (t.Minute / 10), digitChar (t.Minute % 10)] ++ ':' ::
      [digitChar (t.Second / 10), digitChar (t.Second % 10)])))) := by
  obtain ⟨n, hn⟩ := Int.eq_ofNat_of_zero_le h0
  rw [hn] at h1
  have hm := t.month_range
  have hd := t.day_range
  have hh := t.hour_range
  have hmi := t.minute_range
  have hs := t.second_range
  rw [format_data, hn, Int.toNat_ofNat, appendInt_four _ _ (by omega), appendInt_two _ _ (by omega),
    appendInt_two _ _ (by omega), appendInt_two _ _ (by omega), appendInt_two _ _ (by omega),
    appendInt_two _ _ (by omega)]
  simp

/-! ## The output of main -/

theorem sprintln_pair_data (s t : String) :
    (Sprintln [s, t]).data = s.data ++ ' ' :: (t.data ++ ['\n']) := by
  simp [Sprintln, joinSpaces]

theorem sprintf_random_data (r : Int) :
    (Sprintf "Random number: %d\n" [.int r]).data = "Random number: ".data ++ (fmtInteger r ++ ['\n']) := by
  rfl

/-- The text main writes, line by line, given the value `Intn(100)` returns. -/
theorem main_of_draw (rngCooked : Int → Nat) (fuel : Nat) (now1 now2 : Time) (r : Int)
    (rng : rngSource)
    (h : ((globalRand rngCooked).Seed rngCooked now2.UnixNano).Intn 100 fuel = .ok (r, rng)) :
    ∃ out, main rngCooked fuel now1 now2 = .ok out ∧
      lines out =
        ["Hello from Go!", "Current time: " ++ now1.Format "2006-01-02 15:04:05",
         "Sum of 10 and 20 is: 30", "Programming languages:", "1. Go", "2. Python",
         "3. JavaScript", "4. Java", "5. Rust", "Random number: " ++ String.mk (fmtInteger r)] := by
  refine ⟨Sprintln ["Hello from Go!"] ++ Sprintln ["Current time:", now1.Format "2006-01-02 15:04:05"]
      ++ Sprintf "Sum of %d and %d is: %d\n" [.int 10, .int 20, .int (toInt64 (10 + 20))]
      ++ Sprintln ["Programming languages:"] ++ "1. Go\n" ++ "2. Python\n" ++ "3. JavaScript\n"
      ++ "4. Java\n" ++ "5. Rust\n" ++ Sprintf "Random number: %d\n" [.int r], ?_, ?_⟩
  · simp only [main, printLanguages_eq, h, bind, Except.bind, pure, Except.pure]
  · have hd : ∀ F : String, (Sprintln ["Hello from Go!"] ++ Sprintln ["Current time:", F]
        ++ Sprintf "Sum of %d and %d is: %d\n" [.int 10, .int 20, .int (toInt64 (10 + 20))]
        ++ Sprintln ["Programming languages:"] ++ "1. Go\n" ++ "2. Python\n" ++ "3. JavaScript\n"
        ++ "4. Java\n" ++ "5. Rust\n" ++ Sprintf "Random number: %d\n" [.int r]).data =
        "Hello from Go!".data ++ '\n' :: (("Current time: ".data ++ F.data) ++ '\n' ::
        ("Sum of 10 and 20 is: 30".data ++ '\n' :: ("Programming languages:".data ++ '\n' ::
        ("1. Go".data ++ '\n' :: ("2. Python".data ++ '\n' :: ("3. JavaScript".data ++ '\n' ::
        ("4. Java".data ++ '\n' :: ("5. Rust".data ++ '\n' ::
        (("Random number: ".data ++ fmtInteger r) ++ '\n' :: []))))))))) := by
      intro F
      simp only [String.data_append, List.append_assoc, List.cons_append, List.nil_append,
        sprintln_pair_data, sprintf_random_data]
      rfl
    have n1 : '\n' ∉ "Current time: ".data ++ (now1.Format "2006-01-02 15:04:05").data := by
      simp only [List.mem_append, not_or]
      exact ⟨by decide, format_no_newline now1⟩
    have n9 : '\n' ∉ "Random number: ".data ++ fmtInteger r := by
      simp only [List.mem_append, not_or]
      exact ⟨by decide, fmtInteger_no_newline r⟩
    rw [lines, hd, splitLines_line _ _ (by decide), splitLines_line _ _ n1,
      splitLines_line _ _ (by decide), splitLines_line _ _ (by decide),
      splitLines_line _ _ (by decide), splitLines_line _ _ (by decide),
      splitLines_line _ _ (by decide), splitLines_line _ _ (by decide),
      splitLines_line _ _ (by decide), splitLines_line _ _ n9]
    rfl

/-! ## The image -/

theorem build_env (base : Image) :
    (build base).env =
      ("PATH", "/home/coder/go/bin:/usr/local/go/bin:" ++ (getenv base.env "PATH").getD "") ::
      ("GOPATH", "/home/coder/go") :: base.env := by
  have e : (build base).env =
      ("PATH", String.mk ("/home/coder/go/bin:/usr/local/go/bin:".data ++
        (((getenv base.env "PATH").getD "").data ++ []))) ::
      ("GOPATH", "/home/coder/go") :: base.env := rfl
  rw [e, List.append_nil]
  rfl

/-! ## The seeding in closed form -/

theorem toInt32_of_range (z : Int) (h1 : -2147483648 ≤ z) (h2 : z < 2147483648) : toInt32 z = z := by
  unfold toInt32
  omega

/-- The seeding step is the Lehmer generator its comment names:
`x ↦ 48271 * x mod (2^31 - 1)`. -/
theorem seedrand_natCast (n : Nat) (h : n < 2147483647) :
    seedrand (n : Int) = ((48271 * n % 2147483647 : Nat) : Int) := by
  have e1 : Int.tdiv (n : Int) 44488 = ((n / 44488 : Nat) : Int) := (Int.ofNat_tdiv n 44488).symm
  have e2 : Int.tmod (n : Int) 44488 = ((n % 44488 : Nat) : Int) := (Int.ofNat_tmod n 44488).symm
  obtain ⟨hi, hhi⟩ : ∃ hi, hi = n / 44488 := ⟨_, rfl⟩
  obtain ⟨lo, hlo⟩ : ∃ lo, lo = n % 44488 := ⟨_, rfl⟩
  have a1 : toInt32 (48271 * (lo : Int)) = 48271 * lo := toInt32_of_range _ (by omega) (by omega)
  have a2 : toInt32 (3399 * (hi : Int)) = 3399 * hi := toInt32_of_range _ (by omega) (by omega)
  have a3 : toInt32 (48271 * (lo : Int) - 3399 * hi) = 48271 * lo - 3399 * hi :=
    toInt32_of_range _ (by omega) (by omega)
  have a4 : 48271 * (lo : Int) - 3399 * hi < 0 →
      toInt32 (48271 * (lo : Int) - 3399 * hi + int32max) = 48271 * lo - 3399 * hi + int32max := by
    intro hneg
    unfold int32max
    exact toInt32_of_range _ (by omega) (by omega)
  unfold seedrand
  simp only [e1, e2, ← hhi, ← hlo, a1, a2, a3]
  split
  · rename_i hneg
    rw [a4 hneg]
    unfold int32max
    omega
  · omega

theorem seedrand_iterate (k : Nat) (n : Nat) (h : n < 2147483647) :
    seedrand^[k] (n : Int) = ((48271 ^ k * n % 2147483647 : Nat) : Int) := by
  induction k with
  | zero => simp [Nat.mod_eq_of_lt h]
  | succ k ih =>
    rw [Function.iterate_succ_apply', ih,
      seedrand_natCast _ (Nat.mod_lt _ (by norm_num))]
    congr 1
    rw [Nat.mul_mod, Nat.mod_mod, ← Nat.mul_mod, pow_succ]
    congr 1
    ring

theorem seedLoop_round (rngCooked : Int → Nat) (k : Nat) (i x : Int) (vec : Int → Nat)
    (h0 : 0 ≤ i) (h1 : i < 607) :
    seedLoop rngCooked (k + 1) i x vec =
      seedLoop rngCooked k (i + 1) (seedrand^[3] x) (setCell vec i (seedCell rngCooked i x)) := by
  rw [seedLoop, if_pos (by unfold rngLen; omega)]
  simp only [ge_iff_le, if_pos h0]
  rfl

theorem seedLoop_warm (rngCooked : Int → Nat) (k : Nat) (i x : Int) (vec : Int → Nat)
    (h0 : i < 0) :
    seedLoop rngCooked (k + 1) i x vec = seedLoop rngCooked k (i + 1) (seedrand x) vec := by
  rw [seedLoop, if_pos (by unfold rngLen; omega)]
  simp only [ge_iff_le, if_neg (not_le.mpr h0)]

theorem seedLoop_frame (rngCooked : Int → Nat) (k : Nat) :
    ∀ (i x : Int) (vec : Int → Nat) (j : Int), 0 ≤ i → j < i →
      seedLoop rngCooked k i x vec j = vec j := by
  induction k with
  | zero => intro i x vec j _ _; rfl
  | succ k ih =>
    intro i x vec j h0 hj
    by_cases h1 : i < 607
    · rw [seedLoop_round _ _ _ _ _ h0 h1, ih _ _ _ _ (by omega) (by omega)]
      simp only [setCell]
      rw [if_neg (by omega)]
    · rw [seedLoop, if_neg (by unfold rngLen; omega)]

theorem seedLoop_cell (rngCooked : Int → Nat) (k : Nat) :
    ∀ (m : Nat) (x : Int) (vec : Int → Nat) (j : Nat), m + k = 607 → m ≤ j → j < 607 →
      seedLoop rngCooked k (m : Int) x vec (j : Int) =
        seedCell rngCooked j (seedrand^[3 * (j - m)] x) := by
  induction k with
  | zero => intro m x vec j h1 h2 h3; omega
  | succ k ih =>
    intro m x vec j h1 h2 h3
    rw [seedLoop_round _ _ _ _ _ (by omega) (by omega)]
    by_cases hjm : j = m
    · subst hjm
      rw [seedLoop_frame _ _ _ _ _ _ (by omega) (by omega)]
      simp [setCell]
    · have e := ih (m + 1) (seedrand^[3] x) (setCell vec m (seedCell rngCooked m x)) j
        (by omega) (by omega) h3
      rw [Nat.cast_add, Nat.cast_one] at e
      rw [e, ← Function.iterate_add_apply]
      congr 2
      omega

theorem seedLoop_warmup (rngCooked : Int → Nat) (w : Nat) :
    ∀ (k : Nat) (i x : Int) (vec : Int → Nat), i + w ≤ 0 →
      seedLoop rngCooked (k + w) i x vec = seedLoop rngCooked k (i + w) (seedrand^[w] x) vec := by
  induction w with
  | zero => intro k i x vec _; simp
  | succ w ih =>
    intro k i x vec h
    have e : i + ((w + 1 : Nat) : Int) = i + 1 + (w : Int) := by push_cast; omega
    rw [e] at h ⊢
    rw [← Nat.add_assoc, seedLoop_warm _ _ _ _ _ (by omega), ih k (i + 1) (seedrand x) vec h,
      Function.iterate_succ_apply]

/-- The cells of the register after `Seed`, in closed form. -/
theorem seed_vec (rngCooked : Int → Nat) (rng : rngSource) (seed : Int) (n j : Nat)
    (hn : n < 2147483647) (hj : j < 607)
    (hx : toInt32 (if (if Int.tmod seed int32max < 0 then Int.tmod seed int32max + int32max
        else Int.tmod seed int32max) = 0 then 89482311
      else (if Int.tmod seed int32max < 0 then Int.tmod seed int32max + int32max
        else Int.tmod seed int32max)) = (n : Int)) :
    (rng.Seed rngCooked seed).vec (j : Int) =
      (((48271 ^ (3 * j + 21) * n % 2147483647) <<< 40) % 2 ^ 64) ^^^
        (((48271 ^ (3 * j + 22) * n % 2147483647) <<< 20) % 2 ^ 64) ^^^
        (48271 ^ (3 * j + 23) * n % 2147483647) ^^^ (rngCooked j % 2 ^ 64) := by
  have hv : (rng.Seed rngCooked seed).vec = seedLoop rngCooked 627 (-20) (n : Int) rng.vec := by
    simp only [rngSource.Seed, hx]
  have hb : ∀ a : Nat, bits64 ((a % 2147483647 : Nat) : Int) = a % 2147483647 := by
    intro a
    unfold bits64
    have := Nat.mod_lt a (show 0 < 2147483647 by norm_num)
    omega
  have e := seedLoop_cell rngCooked 607 0 (seedrand^[20] (n : Int)) rng.vec j (by omega)
    (by omega) hj
  have w := seedLoop_warmup rngCooked 20 607 (-20) (n : Int) rng.vec (by norm_num)
  have z : (-20 : Int) + ((20 : Nat) : Int) = ((0 : Nat) : Int) := by norm_num
  rw [z] at w
  have q : 3 * (j - 0) + 20 = 3 * j + 20 := by omega
  rw [hv, show (627 : Nat) = 607 + 20 from rfl, w, e, ← Function.iterate_add_apply, q]
  unfold seedCell
  simp only
  rw [← Function.iterate_succ_apply' seedrand, ← Function.iterate_succ_apply' seedrand,
    ← Function.iterate_succ_apply' seedrand, seedrand_iterate _ _ hn, seedrand_iterate _ _ hn,
    seedrand_iterate _ _ hn, hb, hb, hb]

theorem Intn_first (s : rngSource) (fuel : Nat) (h : ¬ rejected s.out) :
    s.Intn 100 fuel =
      .ok (Int.tmod ((s.out % 9223372036854775808 / 4294967296 : Nat) : Int) 100, s.step) := by
  have hm : ¬ s.Int31.1 > 2147483599 := fun g => h ((Int31_gt_max s).1 g)
  rw [Intn_100_eq]
  cases fuel with
  | zero => rw [rejectLoop, if_neg hm, Int31_eq]
  | succ fuel => rw [rejectLoop, if_neg hm, Int31_eq]

/-- The first output of a freshly seeded generator, in closed form. -/
theorem seeded_out (rngCooked : Int → Nat) (rng : rngSource) (seed : Int) (n : Nat)
    (hn : n < 2147483647)
    (hx : toInt32 (if (if Int.tmod seed int32max < 0 then Int.tmod seed int32max + int32max
        else Int.tmod seed int32max) = 0 then 89482311
      else (if Int.tmod seed int32max < 0 then Int.tmod seed int32max + int32max
        else Int.tmod seed int32max)) = (n : Int)) :
    (rng.Seed rngCooked seed).out =
      (((((48271 ^ 1020 * n % 2147483647) <<< 40) % 2 ^ 64) ^^^
        (((48271 ^ 1021 * n % 2147483647) <<< 20) % 2 ^ 64) ^^^
        (48271 ^ 1022 * n % 2147483647) ^^^ (rngCooked 333 % 2 ^ 64)) +
      ((((48271 ^ 1839 * n % 2147483647) <<< 40) % 2 ^ 64) ^^^
        (((48271 ^ 1840 * n % 2147483647) <<< 20) % 2 ^ 64) ^^^
        (48271 ^ 1841 * n % 2147483647) ^^^ (rngCooked 606 % 2 ^ 64))) % 2 ^ 64 := by
  have p1 : 3 * 333 + 21 = 1020 := by norm_num
  have p2 : 3 * 333 + 22 = 1021 := by norm_num
  have p3 : 3 * 333 + 23 = 1022 := by norm_num
  have p4 : 3 * 606 + 21 = 1839 := by norm_num
  have p5 : 3 * 606 + 22 = 1840 := by norm_num
  have p6 : 3 * 606 + 23 = 1841 := by norm_num
  have e1 := seed_vec rngCooked rng seed n 333 hn (by norm_num) hx
  have e2 := seed_vec rngCooked rng seed n 606 hn (by norm_num) hx
  rw [p1, p2, p3] at e1
  rw [p4, p5, p6] at e2
  have f1 : ((rng.Seed rngCooked seed).feed - 1) % 607 = ((333 : Nat) : Int) := by
    simp only [rngSource.Seed, rngLen, rngTap]
    decide
  have f2 : ((rng.Seed rngCooked seed).tap - 1) % 607 = ((606 : Nat) : Int) := by
    simp only [rngSource.Seed]
    decide
  rw [out_eq _ (seed_valid _ _ _), f1, f2, e1, e2, Nat.cast_ofNat, Nat.cast_ofNat]

/-! ## The runtime's generator: end of the redraw loop -/

theorem runtime_Int31_eq (s : runtimeSource) :
    s.Int31 = (((s.next s.pos % 9223372036854775808 / 4294967296 : Nat) : Int),
      { s with pos := s.pos + 1 }) := by
  have e : rngMask = 2 ^ 63 - 1 := rfl
  have m : s.next s.pos % 2 ^ 64 % 2 ^ 63 = s.next s.pos % 9223372036854775808 := by
    norm_num
  simp only [runtimeSource.Int31, runtimeSource.Int63, runtimeSource.Uint64, e,
    Nat.and_pow_two_sub_one_eq_mod, Int.toNat_ofNat, Nat.shiftRight_eq_div_pow, m]

theorem runtime_Int31_gt_max (s : runtimeSource) :
    s.Int31.1 > 2147483599 ↔ rejected (s.next s.pos) := by
  rw [runtime_Int31_eq]
  unfold rejected
  simp only
  omega

theorem runtime_Int31_nonneg (s : runtimeSource) : 0 ≤ s.Int31.1 := by
  rw [runtime_Int31_eq]
  simp only
  omega

theorem redrawLoop_ok (fuel : Nat) :
    ∀ (s : runtimeSource) (k : Nat), k ≤ fuel → ¬ rejected (s.next (s.pos + k)) →
      ∃ v r, 0 ≤ v ∧
        redrawLoop runtimeSource.Int31 2147483599 100 fuel s.Int31.1 s.Int31.2 =
          .ok (Int.tmod v 100, r) := by
  induction fuel with
  | zero =>
    intro s k hk hacc
    obtain rfl : k = 0 := by omega
    refine ⟨s.Int31.1, s.Int31.2, runtime_Int31_nonneg s, ?_⟩
    rw [redrawLoop, if_neg]
    rw [runtime_Int31_gt_max]
    exact hacc
  | succ fuel ih =>
    intro s k hk hacc
    by_cases hr : rejected (s.next s.pos)
    · have hk0 : k ≠ 0 := by
        rintro rfl
        exact hacc hr
      obtain ⟨j, rfl⟩ : ∃ j, k = j + 1 := ⟨k - 1, by omega⟩
      have e2 : s.Int31.2 = { s with pos := s.pos + 1 } := by rw [runtime_Int31_eq]
      have hacc2 : ¬ rejected ((s.Int31.2).next ((s.Int31.2).pos + j)) := by
        rw [e2]
        simp only
        rw [show s.pos + 1 + j = s.pos + (j + 1) by omega]
        exact hacc
      obtain ⟨v, r, hv, he⟩ := ih s.Int31.2 j (by omega) hacc2
      refine ⟨v, r, hv, ?_⟩
      rw [redrawLoop, if_pos ((runtime_Int31_gt_max s).2 hr)]
      exact he
    · refine ⟨s.Int31.1, s.Int31.2, runtime_Int31_nonneg s, ?_⟩
      rw [redrawLoop, if_neg]
      rw [runtime_Int31_gt_max]
      exact hr

theorem runtime_Intn_100_eq (s : runtimeSource) (fuel : Nat) :
    s.Intn 100 fuel =
      redrawLoop runtimeSource.Int31 2147483599 100 fuel s.Int31.1 s.Int31.2 := by
  have e1 : toInt32 100 = 100 := by decide
  have e2 : toInt32 (2 ^ 31 - 1 - 2 ^ 31 % 100) = 2147483599 := by decide
  have e3 : ¬ ((100 : Int) ≤ 0) := by decide
  have e4 : (100 : Int) ≤ 2 ^ 31 - 1 := by decide
  have e5 : ¬ ((100 : Int).toNat &&& ((100 : Int) - 1).toNat = 0) := by decide
  simp only [runtimeSource.Intn, runtimeSource.Int31n, e1, e2, if_neg e3, if_pos e4, if_neg e5]

/-- Over the runtime's generator `Intn(100)` returns a value in `[0, 100)` as
soon as one of the values within the budget passes the redraw test. -/
theorem runtime_Intn_100_ok (s : runtimeSource) (fuel k : Nat) (hk : k ≤ fuel)
    (hacc : ¬ rejected (s.next (s.pos + k))) :
    ∃ v r, 0 ≤ v ∧ v < 100 ∧ s.Intn 100 fuel = .ok (v, r) := by
  obtain ⟨v, r, hv, he⟩ := redrawLoop_ok fuel s k hk hacc
  refine ⟨Int.tmod v 100, r, Int.tmod_nonneg _ hv, Int.tmod_lt_of_pos _ (by norm_num), ?_⟩
  rw [runtime_Intn_100_eq]
  exact he

/-- The lines of the text main writes, for a timestamp `F` and a drawn value `r`. -/
theorem transcript_lines (F : String) (r : Int) (hF : '\n' ∉ F.data) :
    lines (Sprintln ["Hello from Go!"] ++ Sprintln ["Current time:", F]
      ++ Sprintf "Sum of %d and %d is: %d\n" [.int 10, .int 20, .int (toInt64 (10 + 20))]
      ++ Sprintln ["Programming languages:"] ++ "1. Go\n" ++ "2. Python\n" ++ "3. JavaScript\n"
      ++ "4. Java\n" ++ "5. Rust\n" ++ Sprintf "Random number: %d\n" [.int r]) =
      ["Hello from Go!", "Current time: " ++ F,
       "Sum of 10 and 20 is: 30", "Programming languages:", "1. Go", "2. Python",
       "3. JavaScript", "4. Java", "5. Rust", "Random number: " ++ String.mk (fmtInteger r)] := by
  have hd : (Sprintln ["Hello from Go!"] ++ Sprintln ["Current time:", F]
      ++ Sprintf "Sum of %d and %d is: %d\n" [.int 10, .int 20, .int (toInt64 (10 + 20))]
      ++ Sprintln ["Programming languages:"] ++ "1. Go\n" ++ "2. Python\n" ++ "3. JavaScript\n"
      ++ "4. Java\n" ++ "5. Rust\n" ++ Sprintf "Random number: %d\n" [.int r]).data =
      "Hello from Go!".data ++ '\n' :: (("Current time: ".data ++ F.data) ++ '\n' ::
      ("Sum of 10 and 20 is: 30".data ++ '\n' :: ("Programming languages:".data ++ '\n' ::
      ("1. Go".data ++ '\n' :: ("2. Python".data ++ '\n' :: ("3. JavaScript".data ++ '\n' ::
      ("4. Java".data ++ '\n' :: ("5. Rust".data ++ '\n' ::
      (("Random number: ".data ++ fmtInteger r) ++ '\n' :: []))))))))) := by
    simp only [String.data_append, List.append_assoc, List.cons_append, List.nil_append,
      sprintln_pair_data, sprintf_random_data]
    rfl
  have n1 : '\n' ∉ "Current time: ".data ++ F.data := by
    simp only [List.mem_append, not_or]
    exact ⟨by decide, hF⟩
  have n9 : '\n' ∉ "Random number: ".data ++ fmtInteger r := by
    simp only [List.mem_append, not_or]
    exact ⟨by decide, fmtInteger_no_newline r⟩
  rw [lines, hd, splitLines_line _ _ (by decide), splitLines_line _ _ n1,
    splitLines_line _ _ (by decide), splitLines_line _ _ (by decide),
    splitLines_line _ _ (by decide), splitLines_line _ _ (by decide),
    splitLines_line _ _ (by decide), splitLines_line _ _ (by decide),
    splitLines_line _ _ (by decide), splitLines_line _ _ n9]
  rfl

/-- The text `mainSeedNoOp` writes, line by line, given the value `Intn(100)` returns. -/
theorem mainSeedNoOp_of_draw (runtime : runtimeSource) (fuel : Nat) (now1 now2 : Time) (r : Int)
    (rng : runtimeSource) (h : runtime.Intn 100 fuel = .ok (r, rng)) :
    ∃ out, mainSeedNoOp runtime fuel now1 now2 = .ok out ∧
      lines out =
        ["Hello from Go!", "Current time: " ++ now1.Format "2006-01-02 15:04:05",
         "Sum of 10 and 20 is: 30", "Programming languages:", "1. Go", "2. Python",
         "3. JavaScript", "4. Java", "5. Rust", "Random number: " ++ String.mk (fmtInteger r)] := by
  refine ⟨Sprintln ["Hello from Go!"] ++ Sprintln ["Current time:", now1.Format "2006-01-02 15:04:05"]
      ++ Sprintf "Sum of %d and %d is: %d\n" [.int 10, .int 20, .int (toInt64 (10 + 20))]
      ++ Sprintln ["Programming languages:"] ++ "1. Go\n" ++ "2. Python\n" ++ "3. JavaScript\n"
      ++ "4. Java\n" ++ "5. Rust\n" ++ Sprintf "Random number: %d\n" [.int r], ?_, ?_⟩
  · simp only [mainSeedNoOp, seedNoOp, printLanguages_eq, h, bind, Except.bind, pure, Except.pure]
  · exact transcript_lines (now1.Format "2006-01-02 15:04:05") r (format_no_newline now1)


/-! ## Where the seed reaches the output -/

/-- With the all-zero table, the seed of `sampleNow1` draws 0. -/
theorem draw_sampleNow1 (rng : rngSource) (fuel : Nat) :
    ∃ s, (rng.Seed sampleTable sampleNow1.UnixNano).Intn 100 fuel = .ok (0, s) := by
  have ho := seeded_out sampleTable rng sampleNow1.UnixNano 343542285 (by norm_num) (by decide)
  have hv : (rng.Seed sampleTable sampleNow1.UnixNano).out = 222111228946484089 := by
    rw [ho]
    decide!
  have hr : ¬ rejected (rng.Seed sampleTable sampleNow1.UnixNano).out := by
    rw [hv]
    unfold rejected
    decide
  refine ⟨(rng.Seed sampleTable sampleNow1.UnixNano).step, ?_⟩
  rw [Intn_first _ _ hr, hv]
  rfl

/-- With the all-zero table, the seed of `sampleNow2` draws 31. -/
theorem draw_sampleNow2 (rng : rngSource) (fuel : Nat) :
    ∃ s, (rng.Seed sampleTable sampleNow2.UnixNano).Intn 100 fuel = .ok (31, s) := by
  have ho := seeded_out sampleTable rng sampleNow2.UnixNano 343665741 (by norm_num) (by decide)
  have hv : (rng.Seed sampleTable sampleNow2.UnixNano).out = 6075466309301118674 := by
    rw [ho]
    decide!
  have hr : ¬ rejected (rng.Seed sampleTable sampleNow2.UnixNano).out := by
    rw [hv]
    unfold rejected
    decide
  refine ⟨(rng.Seed sampleTable sampleNow2.UnixNano).step, ?_⟩
  rw [Intn_first _ _ hr, hv]
  rfl

/-- The timestamp is a function of the six calendar fields of the reading. -/
theorem format_of_fields (t u : Time) (hY : t.Year = u.Year) (hM : t.Month = u.Month)
    (hD : t.Day = u.Day) (hh : t.Hour = u.Hour) (hm : t.Minute = u.Minute)
    (hs : t.Second = u.Second) :
    t.Format "2006-01-02 15:04:05" = u.Format "2006-01-02 15:04:05" := by
  have e : (t.Format "2006-01-02 15:04:05").data = (u.Format "2006-01-02 15:04:05").data := by
    rw [format_data, format_data, hY, hM, hD, hh, hm, hs]
  calc t.Format "2006-01-02 15:04:05"
      = String.mk (t.Format "2006-01-02 15:04:05").data := rfl
    _ = String.mk (u.Format "2006-01-02 15:04:05").data := by rw [e]
    _ = u.Format "2006-01-02 15:04:05" := rfl

/-- The run of `main` depends on the first reading through its timestamp and on
the second through its `UnixNano` value only. -/
theorem main_congr (rngCooked : Int → Nat) (fuel : Nat) (now1 now2 later1 later2 : Time)
    (hF : now1.Format "2006-01-02 15:04:05" = later1.Format "2006-01-02 15:04:05")
    (hU : now2.UnixNano = later2.UnixNano) :
    main rngCooked fuel now1 now2 = main rngCooked fuel later1 later2 := by
  simp only [main, hF, hU]

theorem mainSeedNoOp_lines (runtime : runtimeSource) (fuel k : Nat) (now1 now2 : Time)
    (hk : k ≤ fuel) (hacc : ¬ rejected (runtime.next (runtime.pos + k))) :
    ∃ r rng out, 0 ≤ r ∧ r < 100 ∧ runtime.Intn 100 fuel = .ok (r, rng) ∧
      mainSeedNoOp runtime fuel now1 now2 = .ok out ∧
      lines out =
        ["Hello from Go!", "Current time: " ++ now1.Format "2006-01-02 15:04:05",
         "Sum of 10 and 20 is: 30", "Programming languages:", "1. Go", "2. Python",
         "3. JavaScript", "4. Java", "5. Rust", "Random number: " ++ String.mk (fmtInteger r)] := by
  obtain ⟨r, rng, h0, h1, h⟩ := runtime_Intn_100_ok runtime fuel k hk hacc
  obtain ⟨out, ho, hl⟩ := mainSeedNoOp_of_draw runtime fuel now1 now2 r rng h
  exact ⟨r, rng, out, h0, h1, h, ho, hl⟩

/-! ## Properties of the sample program and of the image -/

theorem seeded_draw (rngCooked : Int → Nat) (now2 : Time) :
    ∃ r rng, 0 ≤ r ∧ r < 100 ∧
      ((globalRand rngCooked).Seed rngCooked now2.UnixNano).Intn 100 23066 = .ok (r, rng) :=
  Intn_100_ok _ (seed_valid _ _ _) 23066 (le_refl _)

/-- With at least 23066 redraws allowed the run does not depend on the step budget. -/
theorem main_fuel (rngCooked : Int → Nat) (fuel : Nat) (now1 now2 : Time) (hf : 23066 ≤ fuel) :
    main rngCooked fuel now1 now2 = main rngCooked 23066 now1 now2 := by
  obtain ⟨r, rng, _, _, h⟩ := seeded_draw rngCooked now2
  have h2 := Intn_100_mono _ 23066 fuel hf _ h
  simp only [main, h, h2]

theorem main_lines (rngCooked : Int → Nat) (fuel : Nat) (now1 now2 : Time) (hf : 23066 ≤ fuel) :
    ∃ r rng out, 0 ≤ r ∧ r < 100 ∧
      ((globalRand rngCooked).Seed rngCooked now2.UnixNano).Intn 100 23066 = .ok (r, rng) ∧
      main rngCooked fuel now1 now2 = .ok out ∧
      lines out =
        ["Hello from Go!", "Current time: " ++ now1.Format "2006-01-02 15:04:05",
         "Sum of 10 and 20 is: 30", "Programming languages:", "1. Go", "2. Python",
         "3. JavaScript", "4. Java", "5. Rust", "Random number: " ++ String.mk (fmtInteger r)] := by
  obtain ⟨r, rng, h0, h1, h⟩ := seeded_draw rngCooked now2
  obtain ⟨out, ho, hl⟩ := main_of_draw rngCooked 23066 now1 now2 r rng h
  exact ⟨r, rng, out, h0, h1, h, (main_fuel rngCooked fuel now1 now2 hf).trans ho, hl⟩

theorem stamp_line_ne (F : String) : "Current time: " ++ F ≠ "Sum of 10 and 20 is: 30" := by
  intro h
  have h2 : ("Current time: " ++ F).data.head? = some 'C' := rfl
  rw [h] at h2
  exact absurd h2 (by decide)

theorem random_line_ne (F : String) : "Random number: " ++ F ≠ "Sum of 10 and 20 is: 30" := by
  intro h
  have h2 : ("Random number: " ++ F).data.head? = some 'R' := rfl
  rw [h] at h2
  exact absurd h2 (by decide)

theorem fmtInteger_small (n : Nat) (h : n < 100) :
    fmtInteger (n : Int) = if n < 10 then [digitChar n] else [digitChar (n / 10), digitChar (n % 10)] := by
  have e : n % 2 ^ 64 = n := Nat.mod_eq_of_lt (by norm_num; omega)
  unfold fmtInteger
  rw [if_neg (by omega), magnitude_natCast n (by norm_num; omega)]
  unfold decimal
  rw [e]
  by_cases h10 : n < 10
  · rw [decimalLoop_small _ _ _ h10, if_pos h10]
  · rw [decimalLoop_step _ _ _ (by omega), decimalLoop_small _ _ _ (by omega), if_neg h10]

theorem rejectLoop_no_panic (draw : rngSource → Int × rngSource) (max n : Int) (fuel : Nat) :
    ∀ (v : Int) (r : rngSource) (msg : String),
      rejectLoop draw max n fuel v r ≠ .error (.panic msg) := by
  induction fuel with
  | zero =>
    intro v r msg
    rw [rejectLoop]
    split <;> simp
  | succ fuel ih =>
    intro v r msg
    rw [rejectLoop]
    split
    · exact ih _ _ _
    · simp

/-- C1: for every table of the random source, every pair of clock readings and
every sufficient step budget, main completes and its output has the line
"Sum of 10 and 20 is: 30" exactly once, as the third line, right after the
timestamp line; the text after "is: " is the `%d` rendering of `a + b` for
`a = 10`, `b = 20`. -/
theorem sum_line_once (rngCooked : Int → Nat) (fuel : Nat) (now1 now2 : Time)
    (hf : 23066 ≤ fuel) :
    ∃ out, main rngCooked fuel now1 now2 = .ok out ∧
      (lines out).count "Sum of 10 and 20 is: 30" = 1 ∧
      (lines out)[1]? = some ("Current time: " ++ now1.Format "2006-01-02 15:04:05") ∧
      (lines out)[2]? = some "Sum of 10 and 20 is: 30" ∧
      "Sum of 10 and 20 is: 30" = "Sum of 10 and 20 is: " ++ String.mk (fmtInteger (toInt64 (10 + 20))) ∧
      toInt64 (10 + 20) = 10 + 20 := by
  obtain ⟨r, rng, out, _, _, _, ho, hl⟩ := main_lines rngCooked fuel now1 now2 hf
  refine ⟨out, ho, ?_, ?_, ?_, by decide, by decide⟩
  · rw [hl]
    have a1 := stamp_line_ne (now1.Format "2006-01-02 15:04:05")
    have a2 := random_line_ne (String.mk (fmtInteger r))
    simp [List.count_cons, a1, a2]
  · rw [hl]; rfl
  · rw [hl]; rfl

/-- Witness of C1 at the sample inputs. -/
theorem sum_line_once_witness :
    ∃ out, main sampleTable 23066 sampleNow1 sampleNow2 = .ok out ∧
      (lines out).count "Sum of 10 and 20 is: 30" = 1 ∧
      (lines out)[1]? = some ("Current time: " ++ sampleNow1.Format "2006-01-02 15:04:05") ∧
      (lines out)[2]? = some "Sum of 10 and 20 is: 30" ∧
      "Sum of 10 and 20 is: 30" = "Sum of 10 and 20 is: " ++ String.mk (fmtInteger (toInt64 (10 + 20))) ∧
      toInt64 (10 + 20) = 10 + 20 :=
  sum_line_once sampleTable 23066 sampleNow1 sampleNow2 (by decide)

/-- C2: main completes, and the loop over `languages` contributes exactly five
consecutive lines (lines 5 to 9 of the output); the line for index `i` is the
decimal form of `i + 1`, then ". ", then `languages[i]`, that is "1. Go",
"2. Python", "3. JavaScript", "4. Java", "5. Rust" in this order. The loop on its
own appends exactly that text to whatever was written before. -/
theorem language_lines (rngCooked : Int → Nat) (fuel : Nat) (now1 now2 : Time)
    (hf : 23066 ≤ fuel) :
    ∃ out, main rngCooked fuel now1 now2 = .ok out ∧
      ((lines out).drop 4).take 5 = ["1. Go", "2. Python", "3. JavaScript", "4. Java", "5. Rust"] ∧
      (∀ (i : Nat) (lang : String), languages[i]? = some lang →
        (lines out)[4 + i]? =
          some (String.mk (fmtInteger (toInt64 (i + 1))) ++ ". " ++ lang)) ∧
      (∀ before : String, printLanguages before =
        .ok (before ++ "1. Go\n" ++ "2. Python\n" ++ "3. JavaScript\n" ++ "4. Java\n" ++ "5. Rust\n")) ∧
      lines ("1. Go\n" ++ "2. Python\n" ++ "3. JavaScript\n" ++ "4. Java\n" ++ "5. Rust\n") =
        ["1. Go", "2. Python", "3. JavaScript", "4. Java", "5. Rust"] := by
  obtain ⟨r, rng, out, _, _, _, ho, hl⟩ := main_lines rngCooked fuel now1 now2 hf
  refine ⟨out, ho, ?_, ?_, printLanguages_eq, by decide⟩
  · rw [hl]; rfl
  · intro i lang h
    rw [hl]
    rcases i with _ | _ | _ | _ | _ | i
    · simp only [languages, List.getElem?_cons_zero, Option.some.injEq] at h
      subst h
      rfl
    · simp only [languages, List.getElem?_cons_succ, List.getElem?_cons_zero, Option.some.injEq] at h
      subst h
      rfl
    · simp only [languages, List.getElem?_cons_succ, List.getElem?_cons_zero, Option.some.injEq] at h
      subst h
      rfl
    · simp only [languages, List.getElem?_cons_succ, List.getElem?_cons_zero, Option.some.injEq] at h
      subst h
      rfl
    · simp only [languages, List.getElem?_cons_succ, List.getElem?_cons_zero, Option.some.injEq] at h
      subst h
      rfl
    · simp [languages] at h

/-- Witness of C2 at the sample inputs. -/
theorem language_lines_witness :
    ∃ out, main sampleTable 23066 sampleNow1 sampleNow2 = .ok out ∧
      ((lines out).drop 4).take 5 = ["1. Go", "2. Python", "3. JavaScript", "4. Java", "5. Rust"] ∧
      (∀ (i : Nat) (lang : String), languages[i]? = some lang →
        (lines out)[4 + i]? =
          some (String.mk (fmtInteger (toInt64 (i + 1))) ++ ". " ++ lang)) ∧
      (∀ before : String, printLanguages before =
        .ok (before ++ "1. Go\n" ++ "2. Python\n" ++ "3. JavaScript\n" ++ "4. Java\n" ++ "5. Rust\n")) ∧
      lines ("1. Go\n" ++ "2. Python\n" ++ "3. JavaScript\n" ++ "4. Java\n" ++ "5. Rust\n") =
        ["1. Go", "2. Python", "3. JavaScript", "4. Java", "5. Rust"] :=
  language_lines sampleTable 23066 sampleNow1 sampleNow2 (by decide)

/-- C3: for every seed (the `UnixNano` value of the second reading), main
completes and its last line is "Random number: " followed by the `%d` rendering
of an integer `r` with `0 ≤ r < 100`: one or two decimal digits, no sign, whose
value is `r`. -/
theorem random_line_range (rngCooked : Int → Nat) (fuel : Nat) (now1 now2 : Time)
    (hf : 23066 ≤ fuel) :
    ∃ out r, main rngCooked fuel now1 now2 = .ok out ∧ 0 ≤ r ∧ r < 100 ∧
      (lines out).getLast? = some ("Random number: " ++ String.mk (fmtInteger r)) ∧
      (∀ c, c ∈ fmtInteger r → c.isDigit = true) ∧
      (readDecimal (fmtInteger r) : Int) = r := by
  obtain ⟨r, rng, out, h0, h1, _, ho, hl⟩ := main_lines rngCooked fuel now1 now2 hf
  refine ⟨out, r, ho, h0, h1, ?_, ?_, ?_⟩
  · rw [hl]; rfl
  · obtain ⟨n, rfl⟩ := Int.eq_ofNat_of_zero_le h0
    rw [fmtInteger_small n (by omega)]
    intro c hc
    split at hc
    · simp only [List.mem_singleton] at hc
      subst hc
      exact digitChar_isDigit _ (by omega)
    · simp only [List.mem_cons, List.mem_singleton, List.not_mem_nil, or_false] at hc
      rcases hc with hc | hc <;> subst hc <;> exact digitChar_isDigit _ (by omega)
  · obtain ⟨n, rfl⟩ := Int.eq_ofNat_of_zero_le h0
    rw [fmtInteger_small n (by omega)]
    split
    · have e : readDecimal [digitChar n] = n := by
        simp [readDecimal, digitChar_value n (by omega)]
      rw [e]
    · rw [readDecimal_two _ _ (by omega) (by omega)]
      push_cast
      omega

/-- Witness of C3 at the sample inputs. -/
theorem random_line_range_witness :
    ∃ out r, main sampleTable 23066 sampleNow1 sampleNow2 = .ok out ∧ 0 ≤ r ∧ r < 100 ∧
      (lines out).getLast? = some ("Random number: " ++ String.mk (fmtInteger r)) ∧
      (∀ c, c ∈ fmtInteger r → c.isDigit = true) ∧
      (readDecimal (fmtInteger r) : Int) = r :=
  random_line_range sampleTable 23066 sampleNow1 sampleNow2 (by decide)

theorem two_digits_isDigit (n : Nat) (h : n < 100) :
    ∀ c, c ∈ [digitChar (n / 10), digitChar (n % 10)] → c.isDigit = true := by
  intro c hc
  simp only [List.mem_cons, List.mem_singleton, List.not_mem_nil, or_false] at hc
  rcases hc with hc | hc <;> subst hc <;> exact digitChar_isDigit _ (by omega)

theorem four_digits_isDigit (n : Nat) (h : n < 10000) :
    ∀ c, c ∈ [digitChar (n / 1000), digitChar (n / 100 % 10), digitChar (n / 10 % 10),
      digitChar (n % 10)] → c.isDigit = true := by
  intro c hc
  simp only [List.mem_cons, List.mem_singleton, List.not_mem_nil, or_false] at hc
  rcases hc with hc | hc | hc | hc <;> subst hc <;> exact digitChar_isDigit _ (by omega)

/-- C4: for every first reading whose year lies in 0..9999, main completes and
its second line is "Current time: " followed by 19 characters
`YYYY-MM-DD HH:MM:SS`: four digits that read as the year, two digits each that
read as the month, day, hour, minute and second of the reading (so within 1..12,
1..31, 0..23, 0..59, 0..59), separated by '-', '-', ' ', ':' and ':'. -/
theorem timestamp_line (rngCooked : Int → Nat) (fuel : Nat) (now1 now2 : Time)
    (hf : 23066 ≤ fuel) (hy0 : 0 ≤ now1.Year) (hy1 : now1.Year ≤ 9999) :
    ∃ (out : String) (Y M D h m s : List Char),
      main rngCooked fuel now1 now2 = .ok out ∧
      (lines out)[1]? = some (String.mk ("Current time: ".data ++
        (Y ++ '-' :: (M ++ '-' :: (D ++ ' ' :: (h ++ ':' :: (m ++ ':' :: s))))))) ∧
      (Y ++ '-' :: (M ++ '-' :: (D ++ ' ' :: (h ++ ':' :: (m ++ ':' :: s))))).length = 19 ∧
      Y.length = 4 ∧ M.length = 2 ∧ D.length = 2 ∧ h.length = 2 ∧ m.length = 2 ∧ s.length = 2 ∧
      (∀ c, c ∈ Y → c.isDigit = true) ∧ (∀ c, c ∈ M → c.isDigit = true) ∧
      (∀ c, c ∈ D → c.isDigit = true) ∧ (∀ c, c ∈ h → c.isDigit = true) ∧
      (∀ c, c ∈ m → c.isDigit = true) ∧ (∀ c, c ∈ s → c.isDigit = true) ∧
      (readDecimal Y : Int) = now1.Year ∧
      readDecimal M = now1.Month ∧ 1 ≤ readDecimal M ∧ readDecimal M ≤ 12 ∧
      readDecimal D = now1.Day ∧ 1 ≤ readDecimal D ∧ readDecimal D ≤ 31 ∧
      readDecimal h = now1.Hour ∧ readDecimal h ≤ 23 ∧
      readDecimal m = now1.Minute ∧ readDecimal m ≤ 59 ∧
      readDecimal s = now1.Second ∧ readDecimal s ≤ 59 := by
  obtain ⟨r, rng, out, _, _, _, ho, hl⟩ := main_lines rngCooked fuel now1 now2 hf
  have hF := format_fields now1 hy0 hy1
  obtain ⟨n, hn⟩ := Int.eq_ofNat_of_zero_le hy0
  have hm := now1.month_range
  have hd := now1.day_range
  have hh := now1.hour_range
  have hmi := now1.minute_range
  have hs := now1.second_range
  rw [hn] at hy1
  rw [hn, Int.toNat_ofNat] at hF
  have eY : readDecimal [digitChar (n / 1000), digitChar (n / 100 % 10), digitChar (n / 10 % 10),
      digitChar (n % 10)] = n := by
    rw [readDecimal_four _ _ _ _ (by omega) (by omega) (by omega) (by omega)]
    omega
  have eM : readDecimal [digitChar (now1.Month / 10), digitChar (now1.Month % 10)] = now1.Month := by
    rw [readDecimal_two _ _ (by omega) (by omega)]
    omega
  have eD : readDecimal [digitChar (now1.Day / 10), digitChar (now1.Day % 10)] = now1.Day := by
    rw [readDecimal_two _ _ (by omega) (by omega)]
    omega
  have eh : readDecimal [digitChar (now1.Hour / 10), digitChar (now1.Hour % 10)] = now1.Hour := by
    rw [readDecimal_two _ _ (by omega) (by omega)]
    omega
  have em : readDecimal [digitChar (now1.Minute / 10), digitChar (now1.Minute % 10)] =
      now1.Minute := by
    rw [readDecimal_two _ _ (by omega) (by omega)]
    omega
  have es : readDecimal [digitChar (now1.Second / 10), digitChar (now1.Second % 10)] =
      now1.Second := by
    rw [readDecimal_two _ _ (by omega) (by omega)]
    omega
  refine ⟨out, [digitChar (n / 1000), digitChar (n / 100 % 10), digitChar (n / 10 % 10),
      digitChar (n % 10)], [digitChar (now1.Month / 10), digitChar (now1.Month % 10)],
    [digitChar (now1.Day / 10), digitChar (now1.Day % 10)],
    [digitChar (now1.Hour / 10), digitChar (now1.Hour % 10)],
    [digitChar (now1.Minute / 10), digitChar (now1.Minute % 10)],
    [digitChar (now1.Second / 10), digitChar (now1.Second % 10)],
    ho, ?_, rfl, rfl, rfl, rfl, rfl, rfl, rfl,
    four_digits_isDigit n (by omega), two_digits_isDigit now1.Month (by omega),
    two_digits_isDigit now1.Day (by omega), two_digits_isDigit now1.Hour (by omega),
    two_digits_isDigit now1.Minute (by omega), two_digits_isDigit now1.Second (by omega),
    ?_, eM, ?_, ?_, eD, ?_, ?_, eh, ?_, em, ?_, es, ?_⟩
  · rw [hl, ← hF]
    rfl
  · rw [eY, hn]
  · rw [eM]; omega
  · rw [eM]; omega
  · rw [eD]; omega
  · rw [eD]; omega
  · rw [eh]; omega
  · rw [em]; omega
  · rw [es]; omega

/-- Witness of C4 at the sample inputs. -/
theorem timestamp_line_witness :
    ∃ (out : String) (Y M D h m s : List Char),
      main sampleTable 23066 sampleNow1 sampleNow2 = .ok out ∧
      (lines out)[1]? = some (String.mk ("Current time: ".data ++
        (Y ++ '-' :: (M ++ '-' :: (D ++ ' ' :: (h ++ ':' :: (m ++ ':' :: s))))))) ∧
      (Y ++ '-' :: (M ++ '-' :: (D ++ ' ' :: (h ++ ':' :: (m ++ ':' :: s))))).length = 19 ∧
      Y.length = 4 ∧ M.length = 2 ∧ D.length = 2 ∧ h.length = 2 ∧ m.length = 2 ∧ s.length = 2 ∧
      (∀ c, c ∈ Y → c.isDigit = true) ∧ (∀ c, c ∈ M → c.isDigit = true) ∧
      (∀ c, c ∈ D → c.isDigit = true) ∧ (∀ c, c ∈ h → c.isDigit = true) ∧
      (∀ c, c ∈ m → c.isDigit = true) ∧ (∀ c, c ∈ s → c.isDigit = true) ∧
      (readDecimal Y : Int) = sampleNow1.Year ∧
      readDecimal M = sampleNow1.Month ∧ 1 ≤ readDecimal M ∧ readDecimal M ≤ 12 ∧
      readDecimal D = sampleNow1.Day ∧ 1 ≤ readDecimal D ∧ readDecimal D ≤ 31 ∧
      readDecimal h = sampleNow1.Hour ∧ readDecimal h ≤ 23 ∧
      readDecimal m = sampleNow1.Minute ∧ readDecimal m ≤ 59 ∧
      readDecimal s = sampleNow1.Second ∧ readDecimal s ≤ 59 :=
  timestamp_line sampleTable 23066 sampleNow1 sampleNow2 (by decide) (by decide) (by decide)

/-- C5 as stated fails: at the sample inputs the output of main is not the nine
lines greeting, timestamp, sum, five language lines, random number. -/
theorem nine_lines_counterexample :
    ¬ ∃ (out stamp random : String), main sampleTable 23066 sampleNow1 sampleNow2 = .ok out ∧
      lines out = ["Hello from Go!", stamp, "Sum of 10 and 20 is: 30", "1. Go", "2. Python",
        "3. JavaScript", "4. Java", "5. Rust", random] := by
  rintro ⟨out, stamp, random, ho, hl⟩
  obtain ⟨r, rng, out2, _, _, _, ho2, hl2⟩ :=
    main_lines sampleTable 23066 sampleNow1 sampleNow2 (le_refl _)
  rw [ho] at ho2
  cases ho2
  rw [hl] at hl2
  have := congrArg List.length hl2
  simp at this

/-- C5, amended: the complete output of main is exactly ten lines, in this
order: the greeting, the timestamp line, the sum line, the heading
"Programming languages:", the five language lines, and the random-number line
with a value in `[0, 100)`. -/
theorem ten_lines (rngCooked : Int → Nat) (fuel : Nat) (now1 now2 : Time)
    (hf : 23066 ≤ fuel) :
    ∃ out r, main rngCooked fuel now1 now2 = .ok out ∧ 0 ≤ r ∧ r < 100 ∧
      lines out =
        ["Hello from Go!", "Current time: " ++ now1.Format "2006-01-02 15:04:05",
         "Sum of 10 and 20 is: 30", "Programming languages:", "1. Go", "2. Python",
         "3. JavaScript", "4. Java", "5. Rust", "Random number: " ++ String.mk (fmtInteger r)] ∧
      (lines out).length = 10 := by
  obtain ⟨r, rng, out, h0, h1, _, ho, hl⟩ := main_lines rngCooked fuel now1 now2 hf
  refine ⟨out, r, ho, h0, h1, hl, ?_⟩
  rw [hl]
  rfl

/-- Witness of the amended C5 at the sample inputs. -/
theorem ten_lines_witness :
    ∃ out r, main sampleTable 23066 sampleNow1 sampleNow2 = .ok out ∧ 0 ≤ r ∧ r < 100 ∧
      lines out =
        ["Hello from Go!", "Current time: " ++ sampleNow1.Format "2006-01-02 15:04:05",
         "Sum of 10 and 20 is: 30", "Programming languages:", "1. Go", "2. Python",
         "3. JavaScript", "4. Java", "5. Rust", "Random number: " ++ String.mk (fmtInteger r)] ∧
      (lines out).length = 10 :=
  ten_lines sampleTable 23066 sampleNow1 sampleNow2 (by decide)

/-- C6: main has no error path. With a sufficient step budget it runs to
completion; with any budget at all it never panics. The range loop runs its body
exactly five times, at the indices 0..4 with the elements found there, every
fetch being inside the five-element slice; and `Intn(100)` never takes a panic
branch, whatever the state of the generator, since `100 > 0`. -/
theorem main_no_panic (rngCooked : Int → Nat) (fuel : Nat) (now1 now2 : Time)
    (hf : 23066 ≤ fuel) :
    (∃ out, main rngCooked fuel now1 now2 = .ok out) ∧
    (∀ (budget : Nat) (msg : String), main rngCooked budget now1 now2 ≠ .error (.panic msg)) ∧
    languages.length = 5 ∧
    (∀ i, i < 5 → languages[i]? ≠ none) ∧
    (∀ (body : Nat → String → String → Except Fault String) (s : String),
      forRange languages body languages.length 0 s =
        ((((body 0 "Go" s).bind (body 1 "Python")).bind (body 2 "JavaScript")).bind
          (body 3 "Java")).bind (body 4 "Rust")) ∧
    (0 : Int) < 100 ∧
    (∀ (rng : rngSource) (budget : Nat) (msg : String),
      rng.Intn 100 budget ≠ .error (.panic msg)) := by
  obtain ⟨r, rng, out, _, _, _, ho, _⟩ := main_lines rngCooked fuel now1 now2 hf
  have hI : ∀ (rng : rngSource) (budget : Nat) (msg : String),
      rng.Intn 100 budget ≠ .error (.panic msg) := by
    intro rng budget msg
    rw [Intn_100_eq]
    exact rejectLoop_no_panic _ _ _ _ _ _ _
  refine ⟨⟨out, ho⟩, ?_, rfl, ?_, ?_, by decide, hI⟩
  · intro budget msg
    simp only [main, printLanguages_eq, bind, Except.bind, pure, Except.pure]
    have h := hI ((globalRand rngCooked).Seed rngCooked now2.UnixNano) budget msg
    cases hr : ((globalRand rngCooked).Seed rngCooked now2.UnixNano).Intn 100 budget with
    | error e =>
      rw [hr] at h
      simpa using h
    | ok a => simp
  · intro i hi
    interval_cases i <;> decide
  · intro body s
    simp only [forRange, languages, List.length_cons, List.length_nil, List.getElem?_cons_zero,
      List.getElem?_cons_succ, Nat.reduceAdd]
    cases body 0 "Go" s with
    | error e => rfl
    | ok s1 =>
      dsimp only [Except.bind]
      cases body 1 "Python" s1 with
      | error e => rfl
      | ok s2 =>
        dsimp only [Except.bind]
        cases body 2 "JavaScript" s2 with
        | error e => rfl
        | ok s3 =>
          dsimp only [Except.bind]
          cases body 3 "Java" s3 with
          | error e => rfl
          | ok s4 =>
            dsimp only [Except.bind]
            cases body 4 "Rust" s4 with
            | error e => rfl
            | ok s5 => rfl

/-- C7 as stated fails: two base images that differ in the inherited `PATH`
get different values of `PATH`. -/
theorem env_fixed_counterexample :
    ¬ (getenv (build baseA).env "GOPATH" = getenv (build baseB).env "GOPATH" ∧
      getenv (build baseA).env "PATH" = getenv (build baseB).env "PATH") := by
  decide

/-- C7, amended: for every base image `GOPATH` is set to the fixed value
"/home/coder/go", and `PATH` is set to the fixed text
"/home/coder/go/bin:/usr/local/go/bin:" followed by the value of `PATH`
inherited from the base image (nothing when it has none); so two base images
with the same inherited `PATH` get the same `PATH`. -/
theorem env_values (base1 base2 : Image) :
    getenv (build base1).env "GOPATH" = some "/home/coder/go" ∧
    getenv (build base2).env "GOPATH" = some "/home/coder/go" ∧
    getenv (build base1).env "PATH" =
      some ("/home/coder/go/bin:/usr/local/go/bin:" ++ (getenv base1.env "PATH").getD "") ∧
    getenv (build base2).env "PATH" =
      some ("/home/coder/go/bin:/usr/local/go/bin:" ++ (getenv base2.env "PATH").getD "") ∧
    (getenv base1.env "PATH" = getenv base2.env "PATH" →
      getenv (build base1).env "PATH" = getenv (build base2).env "PATH") := by
  have h1 : ∀ base : Image, getenv (build base).env "GOPATH" = some "/home/coder/go" := by
    intro base
    rw [build_env]
    rfl
  have h2 : ∀ base : Image, getenv (build base).env "PATH" =
      some ("/home/coder/go/bin:/usr/local/go/bin:" ++ (getenv base.env "PATH").getD "") := by
    intro base
    rw [build_env]
    rfl
  refine ⟨h1 base1, h1 base2, h2 base1, h2 base2, ?_⟩
  intro e
  rw [h2 base1, h2 base2, e]

/-- C8: for every base image, the startup command of the built image is
`code-server` with the argument after "--bind-addr" having port component
"8080", which is the port the EXPOSE instruction adds to the declared ports; the
argument after "--auth" is "password"; and the last argument is the working
directory set by WORKDIR, "/home/coder/workspace". -/
theorem startup_command (base : Image) :
    (build base).cmd.head? = some "code-server" ∧
    (∃ addr, argAfter "--bind-addr" (build base).cmd = some addr ∧ portOf addr = "8080" ∧
      (build base).exposed = base.exposed ++ [portOf addr]) ∧
    argAfter "--auth" (build base).cmd = some "password" ∧
    (build base).cmd.getLast? = some (build base).workdir ∧
    (build base).workdir = "/home/coder/workspace" ∧
    Instruction.EXPOSE "8080" ∈ dockerfile ∧
    Instruction.WORKDIR "/home/coder/workspace" ∈ dockerfile := by
  refine ⟨rfl, ⟨"0.0.0.0:8080", rfl, by decide, rfl⟩, rfl, rfl, rfl, by decide, by decide⟩

/-- C9: for every base image (whatever user it leaves in effect), the RUN
instructions executed are the package installation, the symlink and the
`mkdir`, each with root as the current user; the user in effect at the CMD
instruction, and in the built image, is coder, which is not root; and the
directories the `mkdir` command names are exactly the `src`, `bin` and `pkg`
children of the value assigned to `GOPATH`. -/
theorem run_as_root (base : Image) :
    (runs (build base)).map Prod.fst = ["root", "root", "root"] ∧
    (∀ entry, entry ∈ runs (build base) → entry.1 = "root") ∧
    (runs (build base)).map Prod.snd =
      [("apt-get update &&     apt-get install -y     golang-go     python3     python3-pip" ++
        "     git     curl     wget     vim     nano     htop     tree     build-essential" ++
        "     && rm -rf /var/lib/apt/lists/*"),
       "ln -s /usr/bin/python3 /usr/bin/python",
       "mkdir -p /home/coder/go/src /home/coder/go/bin /home/coder/go/pkg"] ∧
    cmdUsers (build base) = ["coder"] ∧
    (build base).user = "coder" ∧
    "coder" ≠ "root" ∧
    (∃ gopath, getenv (build base).env "GOPATH" = some gopath ∧
      ((runs (build base)).map (fun entry => mkdirTargets entry.2)).flatten =
        [gopath ++ "/src", gopath ++ "/bin", gopath ++ "/pkg"]) := by
  have hr : runs (build base) =
      [("root", ("apt-get update &&     apt-get install -y     golang-go     python3     python3-pip" ++
        "     git     curl     wget     vim     nano     htop     tree     build-essential" ++
        "     && rm -rf /var/lib/apt/lists/*")),
       ("root", "ln -s /usr/bin/python3 /usr/bin/python"),
       ("root", "mkdir -p /home/coder/go/src /home/coder/go/bin /home/coder/go/pkg")] := rfl
  refine ⟨by rw [hr]; rfl, ?_, by rw [hr]; rfl, rfl, rfl, by decide, ⟨"/home/coder/go", ?_, ?_⟩⟩
  · intro entry he
    rw [hr] at he
    simp only [List.mem_cons, List.mem_singleton, List.not_mem_nil, or_false] at he
    rcases he with he | he | he <;> rw [he]
  · rw [build_env]
    rfl
  · rw [hr]
    decide

/-- Witness of C6 at the sample inputs. -/
theorem main_no_panic_witness :
    (∃ out, main sampleTable 23066 sampleNow1 sampleNow2 = .ok out) ∧
    (∀ (budget : Nat) (msg : String),
      main sampleTable budget sampleNow1 sampleNow2 ≠ .error (.panic msg)) ∧
    languages.length = 5 ∧
    (∀ i, i < 5 → languages[i]? ≠ none) ∧
    (∀ (body : Nat → String → String → Except Fault String) (s : String),
      forRange languages body languages.length 0 s =
        ((((body 0 "Go" s).bind (body 1 "Python")).bind (body 2 "JavaScript")).bind
          (body 3 "Java")).bind (body 4 "Rust")) ∧
    (0 : Int) < 100 ∧
    (∀ (rng : rngSource) (budget : Nat) (msg : String),
      rng.Intn 100 budget ≠ .error (.panic msg)) :=
  main_no_panic sampleTable 23066 sampleNow1 sampleNow2 (by decide)

/-- C10 as stated fails where `rand.Seed` has no effect: two invocations with
the same two readings (so the same seed) print different random numbers, 1 and
48, when the runtime's generator yields different values. -/
theorem same_seed_counterexample :
    ∃ out out2, mainSeedNoOp runtimeA 0 sampleNow1 sampleNow2 = .ok out ∧
      mainSeedNoOp runtimeB 0 sampleNow1 sampleNow2 = .ok out2 ∧
      (lines out)[9]? = some "Random number: 1" ∧
      (lines out2)[9]? = some "Random number: 48" ∧
      out ≠ out2 := by
  have hA : runtimeA.Intn 100 0 = .ok (1, { runtimeA with pos := 1 }) := by rfl
  have hB : runtimeB.Intn 100 0 = .ok (48, { runtimeB with pos := 1 }) := by rfl
  obtain ⟨out, ho, hl⟩ := mainSeedNoOp_of_draw runtimeA 0 sampleNow1 sampleNow2 _ _ hA
  obtain ⟨out2, ho2, hl2⟩ := mainSeedNoOp_of_draw runtimeB 0 sampleNow1 sampleNow2 _ _ hB
  have l9 : (lines out)[9]? = some "Random number: 1" := by
    rw [hl]
    simp only [List.getElem?_cons_zero, List.getElem?_cons_succ]
    rfl
  have l9' : (lines out2)[9]? = some "Random number: 48" := by
    rw [hl2]
    simp only [List.getElem?_cons_zero, List.getElem?_cons_succ]
    rfl
  refine ⟨out, out2, ho, ho2, l9, l9', ?_⟩
  intro e
  rw [e, l9'] at l9
  exact absurd l9 (by decide)

/-- C10, amended: in any two invocations, with or without an effect of
`rand.Seed`, every line other than the timestamp line (index 1) and the
random-number line (index 9) is the same, and the timestamp line is fixed by
the six calendar fields of the first reading. Where `rand.Seed` reseeds the
generator (`main`), the random-number line is fixed by the seed, the `UnixNano`
value of the second reading, whatever else differs, and the whole output by the
calendar fields of the first reading and the seed; that the seed does reach the
output shows with the all-zero table, where the seeds of `sampleNow1` and
`sampleNow2` print 0 and 31. Where `rand.Seed` has no effect (`mainSeedNoOp`),
the random-number line is the value drawn from the runtime's generator, which
no reading enters. -/
theorem output_dependence (rngCooked : Int → Nat) (fuel fuel2 : Nat)
    (now1 now2 later1 later2 : Time) (runtime runtime2 : runtimeSource) (k k2 : Nat)
    (hf : 23066 ≤ fuel) (hf2 : 23066 ≤ fuel2)
    (hk : k ≤ fuel) (hacc : ¬ rejected (runtime.next (runtime.pos + k)))
    (hk2 : k2 ≤ fuel2) (hacc2 : ¬ rejected (runtime2.next (runtime2.pos + k2))) :
    ∃ out out2 free free2,
      main rngCooked fuel now1 now2 = .ok out ∧
      main rngCooked fuel2 later1 later2 = .ok out2 ∧
      mainSeedNoOp runtime fuel now1 now2 = .ok free ∧
      mainSeedNoOp runtime2 fuel2 later1 later2 = .ok free2 ∧
      (lines out).length = 10 ∧ (lines out2).length = 10 ∧
      (lines free).length = 10 ∧ (lines free2).length = 10 ∧
      (∀ i, i ≠ 1 → i ≠ 9 →
        (lines out)[i]? = (lines out2)[i]? ∧ (lines free)[i]? = (lines free2)[i]? ∧
        (lines out)[i]? = (lines free)[i]?) ∧
      (lines out)[1]? = (lines free)[1]? ∧
      (now1.Year = later1.Year → now1.Month = later1.Month → now1.Day = later1.Day →
        now1.Hour = later1.Hour → now1.Minute = later1.Minute → now1.Second = later1.Second →
        (lines out)[1]? = (lines out2)[1]? ∧ (lines free)[1]? = (lines free2)[1]?) ∧
      (now2.UnixNano = later2.UnixNano → (lines out)[9]? = (lines out2)[9]?) ∧
      (now1.Year = later1.Year → now1.Month = later1.Month → now1.Day = later1.Day →
        now1.Hour = later1.Hour → now1.Minute = later1.Minute → now1.Second = later1.Second →
        now2.UnixNano = later2.UnixNano → out = out2) ∧
      (∃ outA outB, main sampleTable fuel now1 sampleNow1 = .ok outA ∧
        main sampleTable fuel now1 sampleNow2 = .ok outB ∧
        (lines outA)[9]? = some "Random number: 0" ∧
        (lines outB)[9]? = some "Random number: 31") ∧
      (∃ r rng, runtime.Intn 100 fuel = .ok (r, rng) ∧ 0 ≤ r ∧ r < 100 ∧
        (lines free)[9]? = some ("Random number: " ++ String.mk (fmtInteger r))) := by
  obtain ⟨r, rng, out, _, _, hd, ho, hl⟩ := main_lines rngCooked fuel now1 now2 hf
  obtain ⟨r2, rng2, out2, _, _, hd2, ho2, hl2⟩ := main_lines rngCooked fuel2 later1 later2 hf2
  obtain ⟨q, rnq, free, hq0, hq1, hq, hfr, hlf⟩ :=
    mainSeedNoOp_lines runtime fuel k now1 now2 hk hacc
  obtain ⟨q2, rnq2, free2, _, _, _, hfr2, hlf2⟩ :=
    mainSeedNoOp_lines runtime2 fuel2 k2 later1 later2 hk2 hacc2
  refine ⟨out, out2, free, free2, ho, ho2, hfr, hfr2, by rw [hl]; rfl, by rw [hl2]; rfl,
    by rw [hlf]; rfl, by rw [hlf2]; rfl, ?_, ?_, ?_, ?_, ?_, ?_, ?_⟩
  · intro i h1 h9
    rw [hl, hl2, hlf, hlf2]
    rcases i with _ | _ | _ | _ | _ | _ | _ | _ | _ | _ | i
    all_goals first
      | exact absurd rfl h1
      | exact absurd rfl h9
      | simp only [List.getElem?_cons_zero, List.getElem?_cons_succ, List.getElem?_nil, and_self]
  · rw [hl, hlf]
    simp only [List.getElem?_cons_zero, List.getElem?_cons_succ]
  · intro hY hM hD hh hm hs
    have hF := format_of_fields now1 later1 hY hM hD hh hm hs
    rw [hl, hl2, hlf, hlf2, hF]
    simp only [List.getElem?_cons_zero, List.getElem?_cons_succ, and_self]
  · intro e
    rw [e, hd2] at hd
    have e2 : r2 = r := congrArg Prod.fst (Except.ok.inj hd)
    rw [hl, hl2, e2]
    simp only [List.getElem?_cons_zero, List.getElem?_cons_succ]
  · intro hY hM hD hh hm hs hU
    have hF := format_of_fields now1 later1 hY hM hD hh hm hs
    rw [main_fuel rngCooked fuel now1 now2 hf, main_congr rngCooked 23066 now1 now2 later1 later2 hF hU,
      ← main_fuel rngCooked fuel2 later1 later2 hf2, ho2] at ho
    exact (Except.ok.inj ho).symm
  · obtain ⟨sA, hA⟩ := draw_sampleNow1 (globalRand sampleTable) fuel
    obtain ⟨sB, hB⟩ := draw_sampleNow2 (globalRand sampleTable) fuel
    obtain ⟨outA, hoA, hlA⟩ := main_of_draw sampleTable fuel now1 sampleNow1 0 sA hA
    obtain ⟨outB, hoB, hlB⟩ := main_of_draw sampleTable fuel now1 sampleNow2 31 sB hB
    refine ⟨outA, outB, hoA, hoB, ?_, ?_⟩
    · rw [hlA]
      simp only [List.getElem?_cons_zero, List.getElem?_cons_succ]
      rfl
    · rw [hlB]
      simp only [List.getElem?_cons_zero, List.getElem?_cons_succ]
      rfl
  · refine ⟨q, rnq, hq, hq0, hq1, ?_⟩
    rw [hlf]
    simp only [List.getElem?_cons_zero, List.getElem?_cons_succ]

/-- Witness of the amended C10: two invocations whose first readings share the
calendar fields but not the instant, and whose second readings share the
instant (the seed) but not the calendar fields. -/
theorem output_dependence_witness :
    ∃ out out2 free free2,
      main sampleTable 23066 sampleNow1 sampleNow2 = .ok out ∧
      main sampleTable 30000 sampleNow2 sampleLocal = .ok out2 ∧
      mainSeedNoOp runtimeA 23066 sampleNow1 sampleNow2 = .ok free ∧
      mainSeedNoOp runtimeB 30000 sampleNow2 sampleLocal = .ok free2 ∧
      sampleNow1 ≠ sampleNow2 ∧ sampleNow2 ≠ sampleLocal ∧
      (∀ i, i ≠ 1 → i ≠ 9 →
        (lines out)[i]? = (lines out2)[i]? ∧ (lines free)[i]? = (lines free2)[i]? ∧
        (lines out)[i]? = (lines free)[i]?) ∧
      (lines out)[1]? = (lines out2)[1]? ∧ (lines free)[1]? = (lines free2)[1]? ∧
      (lines out)[9]? = (lines out2)[9]? ∧
      out = out2 := by
  obtain ⟨out, out2, free, free2, h1, h2, h3, h4, _, _, _, _, h5, _, h6, h7, h8, _, _⟩ :=
    output_dependence sampleTable 23066 30000 sampleNow1 sampleNow2 sampleNow2 sampleLocal
      runtimeA runtimeB 0 0 (by decide) (by decide) (by decide)
      (by
        unfold rejected runtimeA
        decide)
      (by decide)
      (by
        unfold rejected runtimeB
        decide)
  have d1 : sampleNow1 ≠ sampleNow2 := by
    intro e
    exact absurd (congrArg Time.UnixNano e) (by decide)
  have d2 : sampleNow2 ≠ sampleLocal := by
    intro e
    exact absurd (congrArg Time.Hour e) (by decide)
  exact ⟨out, out2, free, free2, h1, h2, h3, h4, d1, d2, h5,
    (h6 rfl rfl rfl rfl rfl rfl).1, (h6 rfl rfl rfl rfl rfl rfl).2, h7 rfl,
    h8 rfl rfl rfl rfl rfl rfl rfl⟩


end PennApps
